import Mathlib

/-!
# Verification of the carbyne-phinance signal generation engine

This file gives a shallow embedding of `src/signals.rs` (the `SignalEngine`:
indicator index building, the nine per-indicator crossing detectors, the
confluence voting aggregator, and the two orchestration entry points) and
proves properties of that embedding.

Modelling conventions:
* `f64` values are modelled as `ℚ` (the engine only performs field arithmetic,
  `min`/`max`, absolute value and comparisons on them).
* `chrono::NaiveDate` is modelled as `ℤ` (only equality and ordering are used).
* A Rust `HashMap<String, f64>` handed to a detector is modelled as an
  association list `List (String × ℚ)` observed only through `lookupName`
  (first match; maps built by the engine have unique keys).
* The nested `HashMap<NaiveDate, HashMap<String, f64>>` built by
  `build_indicator_map` is modelled as an association list with an
  insert-or-update operation mirroring `map.entry(date).or_default().insert`.
* HashMap iteration order is unspecified in Rust.  Where the code iterates a
  map directly (the confluence loop of `generate_signals_with_confluence`),
  the embedding takes the iteration order as an explicit `List ℤ` parameter.
-/

/-- The date-indexed value map for one day: indicator name to value. -/
abbrev DayMap := List (String × ℚ)

/-- First-match association-list lookup; maps built by the engine have unique
keys, so this is the observational semantics of `HashMap::get`. -/
def lookupName : DayMap → String → Option ℚ
  | [], _ => none
  | (k, v) :: rest, n => if k = n then some v else lookupName rest n

/-- One row of the `technical_indicators` input: a (date, name, value) triple. -/
structure TechnicalIndicator where
  date : ℤ
  indicator_name : String
  value : ℚ
  deriving DecidableEq

/-- One daily price bar; the engine reads only `date` and `close`. -/
structure DailyPrice where
  date : ℤ
  openp : ℚ
  high : ℚ
  low : ℚ
  close : ℚ
  volume : ℤ
  deriving DecidableEq

/-- The closed set of signal kinds emitted by the nine detectors. -/
inductive SignalType where
  | RsiOverbought | RsiOversold
  | MacdBullishCross | MacdBearishCross
  | BollingerUpperBreak | BollingerLowerBreak
  | MaCrossoverBullish | MaCrossoverBearish
  | AdxTrendStrong | AdxTrendWeak
  | StochBullishCross | StochBearishCross
  | WillrOverbought | WillrOversold
  | CciOverbought | CciOversold
  | MfiOverbought | MfiOversold
  deriving DecidableEq

inductive SignalDirection where
  | Bullish | Bearish | Neutral
  deriving DecidableEq

/-- A discrete signal record as constructed by the engine (`id = 0`, empty
`created_at`, `acknowledged = false` are placeholders for the persistence
layer). -/
structure Signal where
  id : ℤ
  symbol : String
  signal_type : SignalType
  direction : SignalDirection
  strength : ℚ
  price_at_signal : ℚ
  triggered_by : String
  trigger_value : ℚ
  timestamp : ℤ
  created_at : String
  acknowledged : Bool
  deriving DecidableEq

/-- Detector thresholds, from `SignalConfig` in `src/signals.rs`. -/
structure SignalConfig where
  rsi_overbought : ℚ
  rsi_oversold : ℚ
  adx_strong_trend : ℚ
  adx_weak_trend : ℚ
  stoch_overbought : ℚ
  stoch_oversold : ℚ
  willr_overbought : ℚ
  willr_oversold : ℚ
  cci_overbought : ℚ
  cci_oversold : ℚ
  mfi_overbought : ℚ
  mfi_oversold : ℚ

/-- The `Default` impl of `SignalConfig` in `src/signals.rs`. -/
def SignalConfig.default : SignalConfig :=
  { rsi_overbought := 70, rsi_oversold := 30
    adx_strong_trend := 25, adx_weak_trend := 20
    stoch_overbought := 80, stoch_oversold := 20
    willr_overbought := -20, willr_oversold := -80
    cci_overbought := 100, cci_oversold := -100
    mfi_overbought := 80, mfi_oversold := 20 }

/-- Builds the signal record every detector emits (fields common to all nine
detectors in `src/signals.rs`: `id = 0`, empty `created_at`, not
acknowledged). -/
def mkSignal (symbol : String) (st : SignalType) (dir : SignalDirection)
    (strength : ℚ) (price : ℚ) (trigVal : ℚ) (trigBy : String) (date : ℤ) : Signal :=
  { id := 0, symbol := symbol, signal_type := st, direction := dir
    strength := strength, price_at_signal := price, triggered_by := trigBy
    trigger_value := trigVal, timestamp := date, created_at := ""
    acknowledged := false }

/-- Common shape of the five single-indicator threshold detectors
(RSI, ADX, Williams %R, CCI, MFI) in `src/signals.rs`: value above the high
threshold fires `hiType` when the previous value (if any) was not above it
(`map_or(true, |p| p <= th)`), symmetrically below the low threshold. -/
def thresholdDetect (name : String) (hiTh loTh hiDen loDen : ℚ)
    (hiType loType : SignalType) (hiDir loDir : SignalDirection) (trigBy : String)
    (symbol : String) (date : ℤ) (price : ℚ) (today : DayMap)
    (prev : Option DayMap) : Option Signal :=
  match lookupName today name with
  | none => none
  | some v =>
    let pv : Option ℚ := prev.bind (fun p => lookupName p name)
    if hiTh < v then
      let hiSig := mkSignal symbol hiType hiDir (min ((v - hiTh) / hiDen) 1) price v trigBy date
      match pv with
      | none => some hiSig
      | some p => if p ≤ hiTh then some hiSig else none
    else if v < loTh then
      let loSig := mkSignal symbol loType loDir (min ((loTh - v) / loDen) 1) price v trigBy date
      match pv with
      | none => some loSig
      | some p => if loTh ≤ p then some loSig else none
    else none

/-- Common shape of the three two-series crossover detectors (MACD, MA
crossover, Stochastic) in `src/signals.rs`: series `nameA` crossing above
series `nameB` (previous `a ≤ b`, now `a > b`, plus a detector-specific extra
band test) fires `upType`/Bullish, the reverse crossing fires
`downType`/Bearish; both days' values are required. -/
def crossoverDetect (nameA nameB : String) (upType downType : SignalType)
    (upStrength downStrength : ℚ → ℚ → ℚ) (upExtra downExtra : ℚ → ℚ → Bool)
    (trigBy : String) (symbol : String) (date : ℤ) (price : ℚ) (today : DayMap)
    (prev : Option DayMap) : Option Signal :=
  match lookupName today nameA, lookupName today nameB,
      prev.bind (fun p => lookupName p nameA),
      prev.bind (fun p => lookupName p nameB) with
  | some a, some b, some pa, some pb =>
    if pa ≤ pb ∧ b < a ∧ upExtra a b = true then
      some (mkSignal symbol upType SignalDirection.Bullish (min (upStrength a b) 1)
        price a trigBy date)
    else if pb ≤ pa ∧ a < b ∧ downExtra a b = true then
      some (mkSignal symbol downType SignalDirection.Bearish (min (downStrength a b) 1)
        price a trigBy date)
    else none
  | _, _, _, _ => none

/-- `detect_rsi_signal`: RSI_14 crossing above `rsi_overbought` (Bearish) or
below `rsi_oversold` (Bullish); strength `(rsi-th)/30` clamped at 1. -/
def detect_rsi_signal (cfg : SignalConfig) (symbol : String) (date : ℤ) (price : ℚ)
    (today : DayMap) (prev : Option DayMap) : Option Signal :=
  thresholdDetect "RSI_14" cfg.rsi_overbought cfg.rsi_oversold 30 30
    SignalType.RsiOverbought SignalType.RsiOversold
    SignalDirection.Bearish SignalDirection.Bullish "RSI_14"
    symbol date price today prev

/-- `detect_macd_signal`: MACD line crossing its signal line; strength
`abs(macd-signal)/max(price,1)*100` clamped at 1. -/
def detect_macd_signal (_cfg : SignalConfig) (symbol : String) (date : ℤ) (price : ℚ)
    (today : DayMap) (prev : Option DayMap) : Option Signal :=
  crossoverDetect "MACD_12_26" "MACD_SIGNAL_9"
    SignalType.MacdBullishCross SignalType.MacdBearishCross
    (fun a b => abs (a - b) / max price 1 * 100)
    (fun a b => abs (a - b) / max price 1 * 100)
    (fun _ _ => true) (fun _ _ => true) "MACD" symbol date price today prev

/-- `detect_bollinger_signal`: a level test of today's close against the
bands; no previous-day lookback. -/
def detect_bollinger_signal (_cfg : SignalConfig) (symbol : String) (date : ℤ)
    (price : ℚ) (today : DayMap) : Option Signal :=
  match lookupName today "BB_UPPER_20", lookupName today "BB_LOWER_20",
      lookupName today "BB_MIDDLE_20" with
  | some upper, some lower, some middle =>
    if upper < price then
      some (mkSignal symbol SignalType.BollingerUpperBreak SignalDirection.Bearish
        (min ((price - upper) / max (upper - middle) (1/100)) 1) price upper
        "BB_UPPER_20" date)
    else if price < lower then
      some (mkSignal symbol SignalType.BollingerLowerBreak SignalDirection.Bullish
        (min ((lower - price) / max (middle - lower) (1/100)) 1) price lower
        "BB_LOWER_20" date)
    else none
  | _, _, _ => none

/-- `detect_ma_crossover_signal`: SMA_20 crossing SMA_50; strength
`(fast-slow)/slow*100` (resp. `(slow-fast)/slow*100`) clamped at 1. -/
def detect_ma_crossover_signal (_cfg : SignalConfig) (symbol : String) (date : ℤ)
    (price : ℚ) (today : DayMap) (prev : Option DayMap) : Option Signal :=
  crossoverDetect "SMA_20" "SMA_50"
    SignalType.MaCrossoverBullish SignalType.MaCrossoverBearish
    (fun a b => (a - b) / b * 100) (fun a b => (b - a) / b * 100)
    (fun _ _ => true) (fun _ _ => true) "SMA_20/50" symbol date price today prev

/-- `detect_adx_signal`: ADX_14 crossing above `adx_strong_trend` or below
`adx_weak_trend`; both directions are Neutral. -/
def detect_adx_signal (cfg : SignalConfig) (symbol : String) (date : ℤ) (price : ℚ)
    (today : DayMap) (prev : Option DayMap) : Option Signal :=
  thresholdDetect "ADX_14" cfg.adx_strong_trend cfg.adx_weak_trend 25 20
    SignalType.AdxTrendStrong SignalType.AdxTrendWeak
    SignalDirection.Neutral SignalDirection.Neutral "ADX_14"
    symbol date price today prev

/-- `detect_stochastic_signal`: %K crossing %D inside the near-oversold band
(`k < stoch_oversold + 20`, Bullish) or near-overbought band
(`k > stoch_overbought - 20`, Bearish); strength `abs(d-k)/20` clamped. -/
def detect_stochastic_signal (cfg : SignalConfig) (symbol : String) (date : ℤ)
    (price : ℚ) (today : DayMap) (prev : Option DayMap) : Option Signal :=
  crossoverDetect "STOCH_K_14" "STOCH_D_3"
    SignalType.StochBullishCross SignalType.StochBearishCross
    (fun k d => abs (d - k) / 20) (fun k d => abs (k - d) / 20)
    (fun k _ => decide (k < cfg.stoch_oversold + 20))
    (fun k _ => decide (cfg.stoch_overbought - 20 < k))
    "STOCH" symbol date price today prev

/-- `detect_willr_signal`: Williams %R crossing above `willr_overbought` or
below `willr_oversold`; strength denominators are 20. -/
def detect_willr_signal (cfg : SignalConfig) (symbol : String) (date : ℤ) (price : ℚ)
    (today : DayMap) (prev : Option DayMap) : Option Signal :=
  thresholdDetect "WILLR_14" cfg.willr_overbought cfg.willr_oversold 20 20
    SignalType.WillrOverbought SignalType.WillrOversold
    SignalDirection.Bearish SignalDirection.Bullish "WILLR_14"
    symbol date price today prev

/-- `detect_cci_signal`: CCI crossing above `cci_overbought` or below
`cci_oversold`; strength denominators are 100. -/
def detect_cci_signal (cfg : SignalConfig) (symbol : String) (date : ℤ) (price : ℚ)
    (today : DayMap) (prev : Option DayMap) : Option Signal :=
  thresholdDetect "CCI_20" cfg.cci_overbought cfg.cci_oversold 100 100
    SignalType.CciOverbought SignalType.CciOversold
    SignalDirection.Bearish SignalDirection.Bullish "CCI_20"
    symbol date price today prev

/-- `detect_mfi_signal`: MFI crossing above `mfi_overbought` or below
`mfi_oversold`; strength denominators are 20. -/
def detect_mfi_signal (cfg : SignalConfig) (symbol : String) (date : ℤ) (price : ℚ)
    (today : DayMap) (prev : Option DayMap) : Option Signal :=
  thresholdDetect "MFI_14" cfg.mfi_overbought cfg.mfi_oversold 20 20
    SignalType.MfiOverbought SignalType.MfiOversold
    SignalDirection.Bearish SignalDirection.Bullish "MFI_14"
    symbol date price today prev

/-- One directional vote inside the confluence aggregator. -/
structure IndicatorVote where
  indicator_name : String
  direction : SignalDirection
  strength : ℚ
  value : ℚ
  deriving DecidableEq

/-- The aggregate confluence event record. -/
structure ConfluenceSignal where
  id : ℤ
  symbol : String
  date : ℤ
  direction : SignalDirection
  strength : ℚ
  contributing_indicators : List IndicatorVote
  bullish_count : ℕ
  bearish_count : ℕ
  adx_confidence : Option ℚ
  price_at_signal : ℚ
  created_at : String
  deriving DecidableEq

/-- Modelled from the spec: `ConfluenceConfig` lives in `src/models.rs`, which
is not among the provided sources.  Spec §4.3/§6: the confluence aggregator
has its own RSI/Stochastic/CCI/ADX thresholds plus a minimum-agreeing-
indicators count.  Field names follow their uses in `src/signals.rs`. -/
structure ConfluenceConfig where
  rsi_oversold : ℚ
  rsi_overbought : ℚ
  stoch_oversold : ℚ
  stoch_overbought : ℚ
  cci_oversold : ℚ
  cci_overbought : ℚ
  adx_strong_trend : ℚ
  min_agreeing_indicators : ℕ

/-- Modelled from the spec: the default `ConfluenceConfig` (defined in the
missing `src/models.rs`).  Spec §6 requires a configurable minimum-agreement
count with 3 exercised by the reference tests; the reference tests in
`src/signals.rs` pin the default thresholds to the conventional levels
(RSI 30/70, Stochastic 20/80, CCI ±100, ADX strong trend 25). -/
def ConfluenceConfig.default : ConfluenceConfig :=
  { rsi_oversold := 30, rsi_overbought := 70
    stoch_oversold := 20, stoch_overbought := 80
    cci_oversold := -100, cci_overbought := 100
    adx_strong_trend := 25, min_agreeing_indicators := 3 }

/-- The RSI vote of `detect_confluence_signal` (lines 694-716). -/
def rsi_vote (ccfg : ConfluenceConfig) (m : DayMap) : List IndicatorVote :=
  match lookupName m "RSI_14" with
  | none => []
  | some rsi =>
    if rsi < ccfg.rsi_oversold then
      [{ indicator_name := "RSI_14", direction := SignalDirection.Bullish
         strength := min ((ccfg.rsi_oversold - rsi) / 30) 1, value := rsi }]
    else if ccfg.rsi_overbought < rsi then
      [{ indicator_name := "RSI_14", direction := SignalDirection.Bearish
         strength := min ((rsi - ccfg.rsi_overbought) / 30) 1, value := rsi }]
    else []

/-- The MACD vote of `detect_confluence_signal` (lines 719-745): the sign of
`macd - signal` decides the direction, a zero difference abstains. -/
def macd_vote (price : ℚ) (m : DayMap) : List IndicatorVote :=
  match lookupName m "MACD_12_26", lookupName m "MACD_SIGNAL_9" with
  | some macd, some signal =>
    let diff := macd - signal
    if 0 < diff then
      [{ indicator_name := "MACD", direction := SignalDirection.Bullish
         strength := min (abs diff / max price 1 * 100) 1, value := macd }]
    else if diff < 0 then
      [{ indicator_name := "MACD", direction := SignalDirection.Bearish
         strength := min (abs diff / max price 1 * 100) 1, value := macd }]
    else []
  | _, _ => []

/-- The Bollinger-band vote of `detect_confluence_signal` (lines 748-775):
price below the lower band is Bullish, above the upper band Bearish, with the
band midpoint recomputed as `(upper+lower)/2`. -/
def bb_vote (price : ℚ) (m : DayMap) : List IndicatorVote :=
  match lookupName m "BB_UPPER_20", lookupName m "BB_LOWER_20" with
  | some upper, some lower =>
    if price < lower then
      let middle := (upper + lower) / 2
      [{ indicator_name := "BB_LOWER", direction := SignalDirection.Bullish
         strength := min ((lower - price) / max (middle - lower) (1/100)) 1
         value := price }]
    else if upper < price then
      let middle := (upper + lower) / 2
      [{ indicator_name := "BB_UPPER", direction := SignalDirection.Bearish
         strength := min ((price - upper) / max (upper - middle) (1/100)) 1
         value := price }]
    else []
  | _, _ => []

/-- The Stochastic %K vote of `detect_confluence_signal` (lines 778-802): a
level test against the confluence thresholds. -/
def stoch_vote (ccfg : ConfluenceConfig) (m : DayMap) : List IndicatorVote :=
  match lookupName m "STOCH_K_14" with
  | none => []
  | some k =>
    if k < ccfg.stoch_oversold then
      [{ indicator_name := "STOCH_K", direction := SignalDirection.Bullish
         strength := min ((ccfg.stoch_oversold - k) / 20) 1, value := k }]
    else if ccfg.stoch_overbought < k then
      [{ indicator_name := "STOCH_K", direction := SignalDirection.Bearish
         strength := min ((k - ccfg.stoch_overbought) / 20) 1, value := k }]
    else []

/-- The CCI vote of `detect_confluence_signal` (lines 805-829): a level test;
the source additionally takes `abs` before clamping. -/
def cci_vote (ccfg : ConfluenceConfig) (m : DayMap) : List IndicatorVote :=
  match lookupName m "CCI_20" with
  | none => []
  | some cci =>
    if cci < ccfg.cci_oversold then
      [{ indicator_name := "CCI_20", direction := SignalDirection.Bullish
         strength := min (abs ((ccfg.cci_oversold - cci) / 100)) 1, value := cci }]
    else if ccfg.cci_overbought < cci then
      [{ indicator_name := "CCI_20", direction := SignalDirection.Bearish
         strength := min (abs ((cci - ccfg.cci_overbought) / 100)) 1, value := cci }]
    else []

/-- The five voting sources of `detect_confluence_signal`, in source order:
RSI, MACD, Bollinger position, Stochastic %K, CCI.  The source pushes each
vote and bumps the matching count/sum accumulators; accumulating into a list
and counting below is observationally the same. -/
def confluence_votes (ccfg : ConfluenceConfig) (price : ℚ) (m : DayMap) :
    List IndicatorVote :=
  rsi_vote ccfg m ++ macd_vote price m ++ bb_vote price m ++ stoch_vote ccfg m ++
    cci_vote ccfg m

/-- The votes cast in one direction. -/
def votesIn (dir : SignalDirection) (vs : List IndicatorVote) : List IndicatorVote :=
  vs.filter (fun v => decide (v.direction = dir))

/-- The ADX confidence value of `detect_confluence_signal` (lines 832-834):
`indicators.get("ADX_14").copied().filter(|adx| adx > adx_strong_trend)`. -/
def adx_confidence_of (ccfg : ConfluenceConfig) (m : DayMap) : Option ℚ :=
  (lookupName m "ADX_14").filter (fun a => decide (ccfg.adx_strong_trend < a))

/-- The ADX confidence multiplier step (lines 850-854): with a confidence
value the final strength is `min(1, base * min(2, adx/25))`, otherwise the
base strength unchanged. -/
def finalStrength (adx_confidence : Option ℚ) (base : ℚ) : ℚ :=
  match adx_confidence with
  | some adx => min (base * min (adx / 25) 2) 1
  | none => base

/-- `detect_confluence_signal` (lines 680-869): tally the five votes, then in
fixed priority order emit Bullish if the bullish count meets the minimum,
else Bearish if the bearish count does, else nothing; the emitted strength is
the winning side's average vote strength put through the ADX multiplier. -/
def detect_confluence_signal (ccfg : ConfluenceConfig) (symbol : String) (date : ℤ)
    (price : ℚ) (m : DayMap) : Option ConfluenceSignal :=
  let votes := confluence_votes ccfg price m
  let bullish_count := (votesIn SignalDirection.Bullish votes).length
  let bearish_count := (votesIn SignalDirection.Bearish votes).length
  let bullish_strength_sum := ((votesIn SignalDirection.Bullish votes).map
    IndicatorVote.strength).sum
  let bearish_strength_sum := ((votesIn SignalDirection.Bearish votes).map
    IndicatorVote.strength).sum
  let adx_confidence := adx_confidence_of ccfg m
  if ccfg.min_agreeing_indicators ≤ bullish_count then
    some { id := 0, symbol := symbol, date := date
           direction := SignalDirection.Bullish
           strength := finalStrength adx_confidence (bullish_strength_sum / (bullish_count : ℚ))
           contributing_indicators := votes
           bullish_count := bullish_count, bearish_count := bearish_count
           adx_confidence := adx_confidence, price_at_signal := price
           created_at := "" }
  else if ccfg.min_agreeing_indicators ≤ bearish_count then
    some { id := 0, symbol := symbol, date := date
           direction := SignalDirection.Bearish
           strength := finalStrength adx_confidence (bearish_strength_sum / (bearish_count : ℚ))
           contributing_indicators := votes
           bullish_count := bullish_count, bearish_count := bearish_count
           adx_confidence := adx_confidence, price_at_signal := price
           created_at := "" }
  else none

/-- Replace-or-extend insert on a per-day map, the observational behaviour of
`HashMap::insert` on the inner map. -/
def insertPair (k : String) (v : ℚ) : DayMap → DayMap
  | [] => [(k, v)]
  | (k2, v2) :: rest =>
    if k2 = k then (k2, v) :: rest else (k2, v2) :: insertPair k v rest

/-- `map.entry(date).or_default().insert(name, value)` on the outer map. -/
def updateDate (d : ℤ) (n : String) (v : ℚ) :
    List (ℤ × DayMap) → List (ℤ × DayMap)
  | [] => [(d, [(n, v)])]
  | (d2, m) :: rest =>
    if d2 = d then (d2, insertPair n v m) :: rest
    else (d2, m) :: updateDate d n v rest

/-- First-match lookup on the outer date index (keys are unique by
construction). -/
def lookupDate : List (ℤ × DayMap) → ℤ → Option DayMap
  | [], _ => none
  | (d2, m) :: rest, d => if d2 = d then some m else lookupDate rest d

/-- `build_indicator_map` (lines 81-94): fold the raw indicator rows into a
date-indexed map of name-indexed maps. -/
def build_indicator_map (indicators : List TechnicalIndicator) :
    List (ℤ × DayMap) :=
  indicators.foldl (fun acc i => updateDate i.date i.indicator_name i.value acc) []

/-- Lookup of a (date, name) cell of the built index. -/
def getVal (idx : List (ℤ × DayMap)) (d : ℤ) (n : String) : Option ℚ :=
  match lookupDate idx d with
  | some m => lookupName m n
  | none => none

/-- Last-match close lookup on the raw price list: `generate_signals` builds
`price_map` by straight insertion, so for duplicate dates the later row
wins. -/
def lookupClose : List DailyPrice → ℤ → Option ℚ
  | [], _ => none
  | p :: rest, d =>
    match lookupClose rest d with
    | some c => some c
    | none => if p.date = d then some p.close else none

/-- `price_map.get(date).map(|p| p.close).unwrap_or(0.0)` (line 129). -/
def priceOrZero (prices : List DailyPrice) (d : ℤ) : ℚ :=
  (lookupClose prices d).getD 0

/-- The per-date detector block of `generate_signals` (lines 131-192): the
nine detectors invoked in fixed order, each contributing at most one
signal. -/
def signalsForDate (cfg : SignalConfig) (symbol : String) (date : ℤ) (price : ℚ)
    (today : DayMap) (prev : Option DayMap) : List Signal :=
  (detect_rsi_signal cfg symbol date price today prev).toList ++
  (detect_macd_signal cfg symbol date price today prev).toList ++
  (detect_bollinger_signal cfg symbol date price today).toList ++
  (detect_ma_crossover_signal cfg symbol date price today prev).toList ++
  (detect_adx_signal cfg symbol date price today prev).toList ++
  (detect_stochastic_signal cfg symbol date price today prev).toList ++
  (detect_willr_signal cfg symbol date price today prev).toList ++
  (detect_cci_signal cfg symbol date price today prev).toList ++
  (detect_mfi_signal cfg symbol date price today prev).toList

/-- The date loop of `generate_signals` (lines 120-193): walk the sorted
dates; a date whose map is missing is skipped (`let ... else continue`) but
still becomes the next iteration's previous date (`dates[i-1]`); the previous
map is looked up by that previous date. -/
def genLoop (cfg : SignalConfig) (symbol : String) (imap : List (ℤ × DayMap))
    (prices : List DailyPrice) : List ℤ → Option ℤ → List Signal
  | [], _ => []
  | d :: rest, prevDate =>
    match lookupDate imap d with
    | none => genLoop cfg symbol imap prices rest (some d)
    | some today =>
      signalsForDate cfg symbol d (priceOrZero prices d) today
        (prevDate.bind (fun pd => lookupDate imap pd)) ++
      genLoop cfg symbol imap prices rest (some d)

/-- The sorted distinct dates of the built index (lines 117-118: collect the
map keys, then sort). -/
def sortedKeys (imap : List (ℤ × DayMap)) : List ℤ :=
  List.insertionSort (fun a b => a ≤ b) (imap.map Prod.fst)

/-- `generate_signals` (lines 97-196): empty output on empty input, otherwise
the date loop over the sorted distinct indicator dates. -/
def generate_signals (cfg : SignalConfig) (symbol : String)
    (indicators : List TechnicalIndicator) (prices : List DailyPrice) : List Signal :=
  if prices.isEmpty || indicators.isEmpty then []
  else
    let imap := build_indicator_map indicators
    genLoop cfg symbol imap prices (sortedKeys imap) none

/-- The confluence loop of `generate_signals_with_confluence` (lines
890-897), iterating the date-indexed map in the order `order` (Rust iterates
the `HashMap` directly, in its unspecified iteration order, which this
parameter makes explicit). -/
def confluenceLoop (ccfg : ConfluenceConfig) (symbol : String)
    (imap : List (ℤ × DayMap)) (prices : List DailyPrice) :
    List ℤ → List ConfluenceSignal
  | [] => []
  | d :: rest =>
    match lookupDate imap d with
    | none => confluenceLoop ccfg symbol imap prices rest
    | some m =>
      (detect_confluence_signal ccfg symbol d (priceOrZero prices d) m).toList ++
      confluenceLoop ccfg symbol imap prices rest

/-- `generate_signals_with_confluence` (lines 872-900): the individual
signals plus one confluence evaluation per date of the index, the latter in
map-iteration order `order`. -/
def generate_signals_with_confluence (cfg : SignalConfig) (ccfg : ConfluenceConfig)
    (symbol : String) (indicators : List TechnicalIndicator)
    (prices : List DailyPrice) (order : List ℤ) :
    List Signal × List ConfluenceSignal :=
  (generate_signals cfg symbol indicators prices,
   confluenceLoop ccfg symbol (build_indicator_map indicators) prices order)

/-! ## Basic inversion lemmas for the detector shapes -/

theorem thresholdDetect_eq_some {name : String} {hiTh loTh hiDen loDen : ℚ}
    {hiType loType : SignalType} {hiDir loDir : SignalDirection} {trigBy symbol : String}
    {date : ℤ} {price : ℚ} {today : DayMap} {prev : Option DayMap} {s : Signal}
    (h : thresholdDetect name hiTh loTh hiDen loDen hiType loType hiDir loDir trigBy
      symbol date price today prev = some s) :
    ∃ v, lookupName today name = some v ∧
      ((hiTh < v ∧ (∀ p, prev.bind (fun m => lookupName m name) = some p → p ≤ hiTh) ∧
        s = mkSignal symbol hiType hiDir (min ((v - hiTh) / hiDen) 1) price v trigBy date) ∨
       (¬ hiTh < v ∧ v < loTh ∧
        (∀ p, prev.bind (fun m => lookupName m name) = some p → loTh ≤ p) ∧
        s = mkSignal symbol loType loDir (min ((loTh - v) / loDen) 1) price v trigBy date)) := by
  unfold thresholdDetect at h
  split at h
  · exact absurd h (by simp)
  · rename_i v hv
    refine ⟨v, hv, ?_⟩
    by_cases hhi : hiTh < v
    · simp only [hhi, if_true] at h
      left
      refine ⟨hhi, ?_, ?_⟩
      · intro p hp
        rw [hp] at h
        simp only at h
        split_ifs at h with hle
        · exact hle
      · revert h
        split
        · intro h; exact (Option.some.inj h).symm
        · intro h; split_ifs at h; exact (Option.some.inj h).symm
    · simp only [hhi, if_false] at h
      split_ifs at h with hlo
      · right
        refine ⟨hhi, hlo, ?_, ?_⟩
        · intro p hp
          rw [hp] at h
          simp only at h
          split_ifs at h with hge
          · exact hge
        · revert h
          split
          · intro h; exact (Option.some.inj h).symm
          · intro h; split_ifs at h; exact (Option.some.inj h).symm

theorem crossoverDetect_eq_some {nameA nameB : String} {upType downType : SignalType}
    {upStrength downStrength : ℚ → ℚ → ℚ} {upExtra downExtra : ℚ → ℚ → Bool}
    {trigBy symbol : String} {date : ℤ} {price : ℚ} {today : DayMap}
    {prev : Option DayMap} {s : Signal}
    (h : crossoverDetect nameA nameB upType downType upStrength downStrength
      upExtra downExtra trigBy symbol date price today prev = some s) :
    ∃ a b pa pb, lookupName today nameA = some a ∧ lookupName today nameB = some b ∧
      prev.bind (fun m => lookupName m nameA) = some pa ∧
      prev.bind (fun m => lookupName m nameB) = some pb ∧
      ((pa ≤ pb ∧ b < a ∧ upExtra a b = true ∧
        s = mkSignal symbol upType SignalDirection.Bullish (min (upStrength a b) 1)
          price a trigBy date) ∨
       (pb ≤ pa ∧ a < b ∧ downExtra a b = true ∧
        s = mkSignal symbol downType SignalDirection.Bearish (min (downStrength a b) 1)
          price a trigBy date)) := by
  unfold crossoverDetect at h
  split at h
  · rename_i a b pa pb ha hb hpa hpb
    refine ⟨a, b, pa, pb, ha, hb, hpa, hpb, ?_⟩
    split_ifs at h with h1 h2
    · exact Or.inl ⟨h1.1, h1.2.1, h1.2.2, (Option.some.inj h).symm⟩
    · exact Or.inr ⟨h2.1, h2.2.1, h2.2.2, (Option.some.inj h).symm⟩
  · exact absurd h (by simp)

theorem bollinger_eq_some {cfg : SignalConfig} {symbol : String} {date : ℤ}
    {price : ℚ} {today : DayMap} {s : Signal}
    (h : detect_bollinger_signal cfg symbol date price today = some s) :
    ∃ upper lower middle, lookupName today "BB_UPPER_20" = some upper ∧
      lookupName today "BB_LOWER_20" = some lower ∧
      lookupName today "BB_MIDDLE_20" = some middle ∧
      ((upper < price ∧
        s = mkSignal symbol SignalType.BollingerUpperBreak SignalDirection.Bearish
          (min ((price - upper) / max (upper - middle) (1/100)) 1) price upper
          "BB_UPPER_20" date) ∨
       (¬ upper < price ∧ price < lower ∧
        s = mkSignal symbol SignalType.BollingerLowerBreak SignalDirection.Bullish
          (min ((lower - price) / max (middle - lower) (1/100)) 1) price lower
          "BB_LOWER_20" date)) := by
  unfold detect_bollinger_signal at h
  split at h
  · rename_i upper lower middle hu hl hm
    refine ⟨upper, lower, middle, hu, hl, hm, ?_⟩
    split_ifs at h with h1 h2
    · exact Or.inl ⟨h1, (Option.some.inj h).symm⟩
    · exact Or.inr ⟨h1, h2, (Option.some.inj h).symm⟩
  · exact absurd h (by simp)

/-! ## Membership in a per-date detector block -/

theorem mem_signalsForDate {cfg : SignalConfig} {symbol : String} {date : ℤ}
    {price : ℚ} {today : DayMap} {prev : Option DayMap} {s : Signal} :
    s ∈ signalsForDate cfg symbol date price today prev ↔
      (detect_rsi_signal cfg symbol date price today prev = some s ∨
       detect_macd_signal cfg symbol date price today prev = some s ∨
       detect_bollinger_signal cfg symbol date price today = some s ∨
       detect_ma_crossover_signal cfg symbol date price today prev = some s ∨
       detect_adx_signal cfg symbol date price today prev = some s ∨
       detect_stochastic_signal cfg symbol date price today prev = some s ∨
       detect_willr_signal cfg symbol date price today prev = some s ∨
       detect_cci_signal cfg symbol date price today prev = some s ∨
       detect_mfi_signal cfg symbol date price today prev = some s) := by
  simp [signalsForDate, List.mem_append, Option.mem_toList, Option.mem_def]

theorem signalsForDate_timestamp {cfg : SignalConfig} {symbol : String} {date : ℤ}
    {price : ℚ} {today : DayMap} {prev : Option DayMap} {s : Signal}
    (h : s ∈ signalsForDate cfg symbol date price today prev) : s.timestamp = date := by
  rcases mem_signalsForDate.mp h with h | h | h | h | h | h | h | h | h
  · rcases thresholdDetect_eq_some h with ⟨v, _, ⟨_, _, rfl⟩ | ⟨_, _, _, rfl⟩⟩ <;> rfl
  · rcases crossoverDetect_eq_some h with ⟨a, b, pa, pb, _, _, _, _, ⟨_, _, _, rfl⟩ | ⟨_, _, _, rfl⟩⟩ <;> rfl
  · rcases bollinger_eq_some h with ⟨u, l, m, _, _, _, ⟨_, rfl⟩ | ⟨_, _, rfl⟩⟩ <;> rfl
  · rcases crossoverDetect_eq_some h with ⟨a, b, pa, pb, _, _, _, _, ⟨_, _, _, rfl⟩ | ⟨_, _, _, rfl⟩⟩ <;> rfl
  · rcases thresholdDetect_eq_some h with ⟨v, _, ⟨_, _, rfl⟩ | ⟨_, _, _, rfl⟩⟩ <;> rfl
  · rcases crossoverDetect_eq_some h with ⟨a, b, pa, pb, _, _, _, _, ⟨_, _, _, rfl⟩ | ⟨_, _, _, rfl⟩⟩ <;> rfl
  · rcases thresholdDetect_eq_some h with ⟨v, _, ⟨_, _, rfl⟩ | ⟨_, _, _, rfl⟩⟩ <;> rfl
  · rcases thresholdDetect_eq_some h with ⟨v, _, ⟨_, _, rfl⟩ | ⟨_, _, _, rfl⟩⟩ <;> rfl
  · rcases thresholdDetect_eq_some h with ⟨v, _, ⟨_, _, rfl⟩ | ⟨_, _, _, rfl⟩⟩ <;> rfl

/-- The detector responsible for each signal type, used to dispatch a signal
found in a per-date block back to the detector that produced it. -/
def detectOfType : SignalType → SignalConfig → String → ℤ → ℚ → DayMap →
    Option DayMap → Option Signal
  | SignalType.RsiOverbought => detect_rsi_signal
  | SignalType.RsiOversold => detect_rsi_signal
  | SignalType.MacdBullishCross => detect_macd_signal
  | SignalType.MacdBearishCross => detect_macd_signal
  | SignalType.BollingerUpperBreak =>
      fun cfg symbol date price today _ => detect_bollinger_signal cfg symbol date price today
  | SignalType.BollingerLowerBreak =>
      fun cfg symbol date price today _ => detect_bollinger_signal cfg symbol date price today
  | SignalType.MaCrossoverBullish => detect_ma_crossover_signal
  | SignalType.MaCrossoverBearish => detect_ma_crossover_signal
  | SignalType.AdxTrendStrong => detect_adx_signal
  | SignalType.AdxTrendWeak => detect_adx_signal
  | SignalType.StochBullishCross => detect_stochastic_signal
  | SignalType.StochBearishCross => detect_stochastic_signal
  | SignalType.WillrOverbought => detect_willr_signal
  | SignalType.WillrOversold => detect_willr_signal
  | SignalType.CciOverbought => detect_cci_signal
  | SignalType.CciOversold => detect_cci_signal
  | SignalType.MfiOverbought => detect_mfi_signal
  | SignalType.MfiOversold => detect_mfi_signal

theorem detectOfType_of_mem {cfg : SignalConfig} {symbol : String} {date : ℤ}
    {price : ℚ} {today : DayMap} {prev : Option DayMap} {s : Signal}
    (h : s ∈ signalsForDate cfg symbol date price today prev) :
    detectOfType s.signal_type cfg symbol date price today prev = some s := by
  rcases mem_signalsForDate.mp h with h | h | h | h | h | h | h | h | h
  · rcases thresholdDetect_eq_some h with ⟨v, _, ⟨_, _, rfl⟩ | ⟨_, _, _, rfl⟩⟩ <;> exact h
  · rcases crossoverDetect_eq_some h with ⟨a, b, pa, pb, _, _, _, _, ⟨_, _, _, rfl⟩ | ⟨_, _, _, rfl⟩⟩ <;> exact h
  · rcases bollinger_eq_some h with ⟨u, l, m, _, _, _, ⟨_, rfl⟩ | ⟨_, _, rfl⟩⟩ <;> exact h
  · rcases crossoverDetect_eq_some h with ⟨a, b, pa, pb, _, _, _, _, ⟨_, _, _, rfl⟩ | ⟨_, _, _, rfl⟩⟩ <;> exact h
  · rcases thresholdDetect_eq_some h with ⟨v, _, ⟨_, _, rfl⟩ | ⟨_, _, _, rfl⟩⟩ <;> exact h
  · rcases crossoverDetect_eq_some h with ⟨a, b, pa, pb, _, _, _, _, ⟨_, _, _, rfl⟩ | ⟨_, _, _, rfl⟩⟩ <;> exact h
  · rcases thresholdDetect_eq_some h with ⟨v, _, ⟨_, _, rfl⟩ | ⟨_, _, _, rfl⟩⟩ <;> exact h
  · rcases thresholdDetect_eq_some h with ⟨v, _, ⟨_, _, rfl⟩ | ⟨_, _, _, rfl⟩⟩ <;> exact h
  · rcases thresholdDetect_eq_some h with ⟨v, _, ⟨_, _, rfl⟩ | ⟨_, _, _, rfl⟩⟩ <;> exact h

/-! ## Crossing detectors cannot fire the same type on consecutive dates -/

theorem mkSignal_signal_type (symbol : String) (st : SignalType) (dir : SignalDirection)
    (strength price trigVal : ℚ) (trigBy : String) (date : ℤ) :
    (mkSignal symbol st dir strength price trigVal trigBy date).signal_type = st := rfl

theorem thresholdDetect_no_repeat {name : String} {hiTh loTh hiDen1 loDen1 hiDen2 loDen2 : ℚ}
    {hiType loType : SignalType} {hiDir1 loDir1 hiDir2 loDir2 : SignalDirection}
    {trigBy1 trigBy2 symbol1 symbol2 : String} {date1 date2 : ℤ} {price1 price2 : ℚ}
    {m1 m2 : DayMap} {prev1 : Option DayMap} {s1 s2 : Signal}
    (hne : hiType ≠ loType)
    (h1 : thresholdDetect name hiTh loTh hiDen1 loDen1 hiType loType hiDir1 loDir1
      trigBy1 symbol1 date1 price1 m1 prev1 = some s1)
    (h2 : thresholdDetect name hiTh loTh hiDen2 loDen2 hiType loType hiDir2 loDir2
      trigBy2 symbol2 date2 price2 m2 (some m1) = some s2)
    (heq : s1.signal_type = s2.signal_type) : False := by
  rcases thresholdDetect_eq_some h1 with ⟨v1, hv1, c1⟩
  rcases thresholdDetect_eq_some h2 with ⟨v2, hv2, c2⟩
  have hbind : (some m1).bind (fun m => lookupName m name) = some v1 := by
    simpa using hv1
  rcases c1 with ⟨hhi1, _, rfl⟩ | ⟨_, hlo1, _, rfl⟩ <;>
    rcases c2 with ⟨hhi2, hp2, rfl⟩ | ⟨_, hlo2, hp2, rfl⟩ <;>
      simp only [mkSignal_signal_type] at heq
  · exact absurd hhi1 (not_lt.mpr (hp2 v1 hbind))
  · exact hne heq
  · exact hne heq.symm
  · exact absurd hlo1 (not_lt.mpr (hp2 v1 hbind))

theorem crossoverDetect_no_repeat {nameA nameB : String} {upType downType : SignalType}
    {f1 g1 f2 g2 : ℚ → ℚ → ℚ} {e1 e1' e2 e2' : ℚ → ℚ → Bool}
    {trigBy1 trigBy2 symbol1 symbol2 : String} {date1 date2 : ℤ} {price1 price2 : ℚ}
    {m1 m2 : DayMap} {prev1 : Option DayMap} {s1 s2 : Signal}
    (hne : upType ≠ downType)
    (h1 : crossoverDetect nameA nameB upType downType f1 g1 e1 e1' trigBy1 symbol1
      date1 price1 m1 prev1 = some s1)
    (h2 : crossoverDetect nameA nameB upType downType f2 g2 e2 e2' trigBy2 symbol2
      date2 price2 m2 (some m1) = some s2)
    (heq : s1.signal_type = s2.signal_type) : False := by
  rcases crossoverDetect_eq_some h1 with ⟨a1, b1, _, _, ha1, hb1, _, _, c1⟩
  rcases crossoverDetect_eq_some h2 with ⟨a2, b2, pa2, pb2, _, _, hpa2, hpb2, c2⟩
  have hpa : pa2 = a1 := by
    rw [Option.some_bind, ha1] at hpa2
    exact (Option.some.inj hpa2).symm
  have hpb : pb2 = b1 := by
    rw [Option.some_bind, hb1] at hpb2
    exact (Option.some.inj hpb2).symm
  subst hpa hpb
  rcases c1 with ⟨_, hup1, _, rfl⟩ | ⟨_, hdn1, _, rfl⟩ <;>
    rcases c2 with ⟨hc2, _, _, rfl⟩ | ⟨hc2, _, _, rfl⟩ <;>
      simp only [mkSignal_signal_type] at heq
  · exact absurd hup1 (not_lt.mpr hc2)
  · exact hne heq
  · exact hne heq.symm
  · exact absurd hdn1 (not_lt.mpr hc2)

/-! ## Strength bounds -/

theorem thresholdDetect_strength {name : String} {hiTh loTh hiDen loDen : ℚ}
    {hiType loType : SignalType} {hiDir loDir : SignalDirection}
    {trigBy symbol : String} {date : ℤ} {price : ℚ} {today : DayMap}
    {prev : Option DayMap} {s : Signal} (hhi : 0 < hiDen) (hlo : 0 < loDen)
    (h : thresholdDetect name hiTh loTh hiDen loDen hiType loType hiDir loDir trigBy
      symbol date price today prev = some s) :
    0 ≤ s.strength ∧ s.strength ≤ 1 := by
  rcases thresholdDetect_eq_some h with ⟨v, _, ⟨hv, _, rfl⟩ | ⟨_, hv, _, rfl⟩⟩ <;>
    simp only [mkSignal] <;>
    refine ⟨le_min (div_nonneg (by linarith) (by linarith)) zero_le_one, min_le_right _ _⟩

theorem crossoverDetect_strength {nameA nameB : String} {upType downType : SignalType}
    {f g : ℚ → ℚ → ℚ} {e e' : ℚ → ℚ → Bool} {trigBy symbol : String} {date : ℤ}
    {price : ℚ} {today : DayMap} {prev : Option DayMap} {s : Signal}
    (hf : ∀ a b, b < a → 0 ≤ f a b) (hg : ∀ a b, a < b → 0 ≤ g a b)
    (h : crossoverDetect nameA nameB upType downType f g e e' trigBy symbol date price
      today prev = some s) :
    0 ≤ s.strength ∧ s.strength ≤ 1 := by
  rcases crossoverDetect_eq_some h with
    ⟨a, b, _, _, _, _, _, _, ⟨_, hc, _, rfl⟩ | ⟨_, hc, _, rfl⟩⟩ <;>
    simp only [mkSignal]
  · exact ⟨le_min (hf a b hc) zero_le_one, min_le_right _ _⟩
  · exact ⟨le_min (hg a b hc) zero_le_one, min_le_right _ _⟩

theorem crossoverDetect_strength_le_one {nameA nameB : String}
    {upType downType : SignalType} {f g : ℚ → ℚ → ℚ} {e e' : ℚ → ℚ → Bool}
    {trigBy symbol : String} {date : ℤ} {price : ℚ} {today : DayMap}
    {prev : Option DayMap} {s : Signal}
    (h : crossoverDetect nameA nameB upType downType f g e e' trigBy symbol date price
      today prev = some s) : s.strength ≤ 1 := by
  rcases crossoverDetect_eq_some h with
    ⟨a, b, _, _, _, _, _, _, ⟨_, _, _, rfl⟩ | ⟨_, _, _, rfl⟩⟩ <;>
    simpa only [mkSignal] using min_le_right _ _

theorem bollinger_strength {cfg : SignalConfig} {symbol : String} {date : ℤ}
    {price : ℚ} {today : DayMap} {s : Signal}
    (h : detect_bollinger_signal cfg symbol date price today = some s) :
    0 ≤ s.strength ∧ s.strength ≤ 1 := by
  rcases bollinger_eq_some h with ⟨u, l, m, _, _, _, ⟨hc, rfl⟩ | ⟨_, hc, rfl⟩⟩ <;>
    simp only [mkSignal] <;>
    refine ⟨le_min (div_nonneg (by linarith)
      (le_trans (by norm_num) (le_max_right _ _))) zero_le_one, min_le_right _ _⟩

/-- The MA-crossover strength is nonnegative as soon as today's slow SMA is
positive (with a nonpositive slow SMA the unclamped formula can be
negative). -/
theorem ma_crossover_strength_nonneg {cfg : SignalConfig} {symbol : String} {date : ℤ}
    {price : ℚ} {today : DayMap} {prev : Option DayMap} {s : Signal}
    (h : detect_ma_crossover_signal cfg symbol date price today prev = some s)
    (hpos : ∀ v, lookupName today "SMA_50" = some v → 0 < v) :
    0 ≤ s.strength := by
  rcases crossoverDetect_eq_some h with
    ⟨a, b, _, _, _, hb, _, _, ⟨_, hc, _, rfl⟩ | ⟨_, hc, _, rfl⟩⟩ <;>
    simp only [mkSignal] <;>
    exact le_min (mul_nonneg (div_nonneg (by linarith) (le_of_lt (hpos b hb)))
      (by norm_num)) zero_le_one

/-! ## Characterization of the built indicator index -/

theorem lookupName_insertPair (m : DayMap) (k n : String) (v : ℚ) :
    lookupName (insertPair k v m) n = if k = n then some v else lookupName m n := by
  induction m with
  | nil => simp [insertPair, lookupName]
  | cons p rest ih =>
    obtain ⟨k2, v2⟩ := p
    by_cases h1 : k2 = k
    · subst h1
      simp only [insertPair, if_pos rfl, lookupName]
      by_cases h2 : k2 = n <;> simp [h2]
    · simp only [insertPair, if_neg h1, lookupName]
      by_cases h2 : k2 = n
      · subst h2
        have hkn : ¬ k = k2 := fun h => h1 h.symm
        simp [hkn]
      · simp [h2, ih]

theorem lookupDate_updateDate (idx : List (ℤ × DayMap)) (d : ℤ) (n : String) (v : ℚ)
    (d' : ℤ) :
    lookupDate (updateDate d n v idx) d' =
      if d' = d then some (insertPair n v ((lookupDate idx d).getD []))
      else lookupDate idx d' := by
  induction idx with
  | nil =>
    simp only [updateDate, lookupDate]
    by_cases h : d' = d
    · subst h; simp [insertPair]
    · have : ¬ d = d' := fun hh => h hh.symm
      simp [h, this]
  | cons p rest ih =>
    obtain ⟨d2, m⟩ := p
    by_cases h1 : d2 = d
    · subst h1
      simp only [updateDate, if_pos rfl, lookupDate]
      by_cases h2 : d2 = d'
      · subst h2; simp [lookupDate]
      · have : ¬ d' = d2 := fun hh => h2 hh.symm
        simp [h2, this]
    · simp only [updateDate, if_neg h1, lookupDate]
      by_cases h2 : d2 = d'
      · subst h2
        simp [h1]
      · simp [h2, ih]

theorem getVal_eq_lookup_getD (idx : List (ℤ × DayMap)) (d : ℤ) (n : String) :
    getVal idx d n = lookupName ((lookupDate idx d).getD []) n := by
  unfold getVal
  cases lookupDate idx d <;> simp [lookupName]

theorem build_indicator_map_concat (inds : List TechnicalIndicator)
    (i : TechnicalIndicator) :
    build_indicator_map (inds ++ [i]) =
      updateDate i.date i.indicator_name i.value (build_indicator_map inds) := by
  simp [build_indicator_map, List.foldl_append]

/-- Last-write-wins: a cell of the built index holds the value of the last
input row with that (date, name) pair. -/
theorem getVal_build (inds : List TechnicalIndicator) (d : ℤ) (n : String) :
    getVal (build_indicator_map inds) d n =
      ((inds.filter (fun i => decide (i.date = d) && decide (i.indicator_name = n))).getLast?).map
        TechnicalIndicator.value := by
  induction inds using List.reverseRecOn with
  | nil => rfl
  | append_singleton inds i ih =>
    rw [build_indicator_map_concat, List.filter_append]
    rw [getVal_eq_lookup_getD, lookupDate_updateDate]
    by_cases hd : d = i.date
    · subst hd
      by_cases hn : i.indicator_name = n
      · subst hn
        have hfi : List.filter
            (fun i2 => decide (i2.date = i.date) && decide (i2.indicator_name = i.indicator_name))
            [i] = [i] := by simp
        rw [hfi, List.getLast?_concat]
        simp [lookupName_insertPair]
      · have hfi : List.filter
            (fun i2 => decide (i2.date = i.date) && decide (i2.indicator_name = n))
            [i] = [] := by simp [hn]
        rw [hfi, List.append_nil, ← ih]
        simp [lookupName_insertPair, hn, getVal_eq_lookup_getD]
    · have hdi : ¬ i.date = d := fun h => hd h.symm
      have hfi : List.filter
          (fun i2 => decide (i2.date = d) && decide (i2.indicator_name = n))
          [i] = [] := by simp [hdi]
      rw [hfi, List.append_nil, if_neg hd]
      rw [← getVal_eq_lookup_getD, ih]

theorem lookupDate_isSome_iff (idx : List (ℤ × DayMap)) (d : ℤ) :
    (lookupDate idx d).isSome = true ↔ d ∈ idx.map Prod.fst := by
  induction idx with
  | nil => simp [lookupDate]
  | cons p rest ih =>
    obtain ⟨d2, m⟩ := p
    by_cases h : d2 = d
    · subst h; simp [lookupDate]
    · have : ¬ d = d2 := fun hh => h hh.symm
      simp [lookupDate, h, this, ih]

theorem keys_updateDate (idx : List (ℤ × DayMap)) (d : ℤ) (n : String) (v : ℚ) :
    (updateDate d n v idx).map Prod.fst =
      if d ∈ idx.map Prod.fst then idx.map Prod.fst else idx.map Prod.fst ++ [d] := by
  induction idx with
  | nil => simp [updateDate]
  | cons p rest ih =>
    obtain ⟨d2, m⟩ := p
    by_cases h : d2 = d
    · subst h; simp [updateDate]
    · have hne : ¬ d = d2 := fun hh => h hh.symm
      by_cases hm : d ∈ rest.map Prod.fst <;>
        simp [updateDate, h, hne, hm, ih]

theorem mem_keys_build (inds : List TechnicalIndicator) :
    ∀ d : ℤ, d ∈ (build_indicator_map inds).map Prod.fst ↔
      d ∈ inds.map TechnicalIndicator.date := by
  induction inds using List.reverseRecOn with
  | nil => simp [build_indicator_map]
  | append_singleton inds i ih =>
    intro d
    rw [build_indicator_map_concat, keys_updateDate]
    by_cases h : i.date ∈ (build_indicator_map inds).map Prod.fst
    · have hd : i.date ∈ inds.map TechnicalIndicator.date := (ih i.date).mp h
      simp only [if_pos h, List.map_append, List.map_cons, List.map_nil, List.mem_append,
        List.mem_cons, List.not_mem_nil, or_false]
      constructor
      · intro hh; exact Or.inl ((ih d).mp hh)
      · rintro (hh | hh)
        · exact (ih d).mpr hh
        · subst hh; exact h
    · simp only [if_neg h, List.map_append, List.map_cons, List.map_nil, List.mem_append,
        List.mem_cons, List.not_mem_nil, or_false]
      constructor
      · rintro (hh | hh)
        · exact Or.inl ((ih d).mp hh)
        · exact Or.inr (by simpa using hh)
      · rintro (hh | hh)
        · exact Or.inl ((ih d).mpr hh)
        · exact Or.inr (by simpa using hh)

theorem keys_build_nodup (inds : List TechnicalIndicator) :
    ((build_indicator_map inds).map Prod.fst).Nodup := by
  induction inds using List.reverseRecOn with
  | nil => simp [build_indicator_map]
  | append_singleton inds i ih =>
    rw [build_indicator_map_concat, keys_updateDate]
    by_cases h : i.date ∈ (build_indicator_map inds).map Prod.fst
    · simpa [h] using ih
    · rw [if_neg h]
      simpa using List.Nodup.append ih (by simp) (by simpa using fun hh => h hh)

theorem lookupClose_eq_none_iff (prices : List DailyPrice) (d : ℤ) :
    lookupClose prices d = none ↔ d ∉ prices.map DailyPrice.date := by
  induction prices with
  | nil => simp [lookupClose]
  | cons p rest ih =>
    simp only [lookupClose, List.map_cons, List.mem_cons]
    cases hc : lookupClose rest d with
    | some c =>
      have hmem : d ∈ rest.map DailyPrice.date := by
        by_contra hno
        rw [ih.mpr hno] at hc
        exact Option.noConfusion hc
      simp [hmem]
    | none =>
      have hni : d ∉ rest.map DailyPrice.date := ih.mp hc
      by_cases hd : p.date = d
      · simp [hd]
      · have hne : ¬ d = p.date := fun hh => hd hh.symm
        simp [hd, hne, hni]

/-! ## Orchestration lemmas -/

theorem genLoop_timestamp {cfg : SignalConfig} {symbol : String}
    {imap : List (ℤ × DayMap)} {prices : List DailyPrice} :
    ∀ {dates : List ℤ} {pd : Option ℤ} {s : Signal},
      s ∈ genLoop cfg symbol imap prices dates pd → s.timestamp ∈ dates := by
  intro dates
  induction dates with
  | nil => intro pd s h; simp [genLoop] at h
  | cons d rest ih =>
    intro pd s h
    simp only [genLoop] at h
    cases hl : lookupDate imap d with
    | none =>
      rw [hl] at h
      exact List.mem_cons_of_mem _ (ih h)
    | some today =>
      rw [hl] at h
      rcases List.mem_append.mp h with hb | hr
      · exact (signalsForDate_timestamp hb) ▸ List.mem_cons_self _ _
      · exact List.mem_cons_of_mem _ (ih hr)

theorem genLoop_mem {cfg : SignalConfig} {symbol : String}
    {imap : List (ℤ × DayMap)} {prices : List DailyPrice} :
    ∀ {dates : List ℤ} {pd : Option ℤ} {s : Signal},
      s ∈ genLoop cfg symbol imap prices dates pd →
      ∃ d m pm, lookupDate imap d = some m ∧
        s ∈ signalsForDate cfg symbol d (priceOrZero prices d) m pm := by
  intro dates
  induction dates with
  | nil => intro pd s h; simp [genLoop] at h
  | cons d rest ih =>
    intro pd s h
    simp only [genLoop] at h
    cases hl : lookupDate imap d with
    | none => rw [hl] at h; exact ih h
    | some today =>
      rw [hl] at h
      rcases List.mem_append.mp h with hb | hr
      · exact ⟨d, today, _, hl, hb⟩
      · exact ih hr

theorem genLoop_intro {cfg : SignalConfig} {symbol : String}
    {imap : List (ℤ × DayMap)} {prices : List DailyPrice} {d : ℤ} {m : DayMap} :
    ∀ {dates : List ℤ} (pd : Option ℤ), d ∈ dates → lookupDate imap d = some m →
      ∃ pm, ∀ s ∈ signalsForDate cfg symbol d (priceOrZero prices d) m pm,
        s ∈ genLoop cfg symbol imap prices dates pd := by
  intro dates
  induction dates with
  | nil => intro pd h; exact absurd h (List.not_mem_nil d)
  | cons d0 rest ih =>
    intro pd hmem hl
    by_cases hd : d0 = d
    · subst hd
      refine ⟨pd.bind (fun p => lookupDate imap p), fun s hs => ?_⟩
      simp only [genLoop, hl]
      exact List.mem_append_left _ hs
    · have hrest : d ∈ rest := by
        rcases List.mem_cons.mp hmem with h | h
        · exact absurd h.symm hd
        · exact h
      obtain ⟨pm, hpm⟩ := ih (some d0) hrest hl
      refine ⟨pm, fun s hs => ?_⟩
      simp only [genLoop]
      cases hl0 : lookupDate imap d0 with
      | none => exact hpm s hs
      | some t0 => exact List.mem_append_right _ (hpm s hs)

/-- The previous-day map the date loop passes when the processed date is
preceded by the prefix `l` (with initial previous date `pd`). -/
def prevMapOf (imap : List (ℤ × DayMap)) (l : List ℤ) (pd : Option ℤ) : Option DayMap :=
  match l.getLast? with
  | some x => lookupDate imap x
  | none => pd.bind (fun p => lookupDate imap p)

theorem prevMapOf_cons (imap : List (ℤ × DayMap)) (x : ℤ) (l : List ℤ)
    (pd : Option ℤ) : prevMapOf imap (x :: l) pd = prevMapOf imap l (some x) := by
  cases l with
  | nil => simp [prevMapOf]
  | cons y l =>
    simp only [prevMapOf, List.getLast?_cons_cons]
    obtain ⟨z, hz⟩ := Option.isSome_iff_exists.mp
      (List.getLast?_isSome.mpr (List.cons_ne_nil y l))
    rw [hz]

theorem genLoop_loc {cfg : SignalConfig} {symbol : String}
    {imap : List (ℤ × DayMap)} {prices : List DailyPrice} :
    ∀ {l : List ℤ} {r : List ℤ} {d : ℤ} {pd : Option ℤ} {s : Signal},
      (l ++ d :: r).Nodup →
      s ∈ genLoop cfg symbol imap prices (l ++ d :: r) pd →
      s.timestamp = d →
      ∃ m, lookupDate imap d = some m ∧
        s ∈ signalsForDate cfg symbol d (priceOrZero prices d) m (prevMapOf imap l pd) := by
  intro l
  induction l with
  | nil =>
    intro r d pd s hnd h hts
    simp only [List.nil_append] at h hnd
    have hdr : d ∉ r := (List.nodup_cons.mp hnd).1
    simp only [genLoop] at h
    cases hl : lookupDate imap d with
    | none =>
      rw [hl] at h
      exact absurd (hts ▸ genLoop_timestamp h) hdr
    | some m =>
      rw [hl] at h
      rcases List.mem_append.mp h with hb | hr
      · exact ⟨m, rfl, by simpa [prevMapOf] using hb⟩
      · exact absurd (hts ▸ genLoop_timestamp hr) hdr
  | cons x l ih =>
    intro r d pd s hnd h hts
    have hnd' : (l ++ d :: r).Nodup := (List.nodup_cons.mp (by simpa using hnd)).2
    have hxd : d ≠ x := by
      have hx : x ∉ l ++ d :: r := (List.nodup_cons.mp (by simpa using hnd)).1
      intro hh
      exact hx (hh ▸ List.mem_append_right _ (List.mem_cons_self _ _))
    simp only [List.cons_append, genLoop] at h
    rw [prevMapOf_cons]
    cases hl : lookupDate imap x with
    | none =>
      rw [hl] at h
      exact ih hnd' h hts
    | some mx =>
      rw [hl] at h
      rcases List.mem_append.mp h with hb | hr
      · exact absurd (hts.symm.trans (signalsForDate_timestamp hb)) hxd
      · exact ih hnd' hr hts

theorem genLoop_eq_flatMap {cfg : SignalConfig} {symbol : String}
    {imap : List (ℤ × DayMap)} {prices : List DailyPrice} :
    ∀ (dates : List ℤ) (pd : Option ℤ),
      genLoop cfg symbol imap prices dates pd =
        (dates.zip (pd :: dates.map some)).flatMap (fun pr =>
          match lookupDate imap pr.1 with
          | some today => signalsForDate cfg symbol pr.1 (priceOrZero prices pr.1) today
              (pr.2.bind (fun p => lookupDate imap p))
          | none => []) := by
  intro dates
  induction dates with
  | nil => intro pd; rfl
  | cons d rest ih =>
    intro pd
    simp only [genLoop, List.map_cons, List.zip_cons_cons, List.flatMap_cons]
    cases hl : lookupDate imap d with
    | none => simp only [hl]; rw [List.nil_append]; exact ih (some d)
    | some today => simp only [hl]; rw [ih (some d)]

theorem confluenceLoop_eq_filterMap (ccfg : ConfluenceConfig) (symbol : String)
    (imap : List (ℤ × DayMap)) (prices : List DailyPrice) :
    ∀ order : List ℤ,
      confluenceLoop ccfg symbol imap prices order =
        order.filterMap (fun d => (lookupDate imap d).bind (fun m =>
          detect_confluence_signal ccfg symbol d (priceOrZero prices d) m)) := by
  intro order
  induction order with
  | nil => rfl
  | cons d rest ih =>
    simp only [confluenceLoop, List.filterMap_cons]
    cases hl : lookupDate imap d with
    | none => simp only [hl, Option.none_bind]; exact ih
    | some m =>
      simp only [hl, Option.some_bind]
      cases hc : detect_confluence_signal ccfg symbol d (priceOrZero prices d) m <;>
        simp [hc, ih]

theorem sortedKeys_build_nodup (inds : List TechnicalIndicator) :
    (sortedKeys (build_indicator_map inds)).Nodup :=
  ((List.perm_insertionSort _ _).nodup_iff).mpr (keys_build_nodup inds)

theorem mem_sortedKeys (imap : List (ℤ × DayMap)) (d : ℤ) :
    d ∈ sortedKeys imap ↔ d ∈ imap.map Prod.fst :=
  (List.perm_insertionSort _ _).mem_iff

/-- The dates the engine iterates are exactly the distinct input dates in
ascending order. -/
theorem sortedKeys_build_eq (inds : List TechnicalIndicator) :
    sortedKeys (build_indicator_map inds) =
      List.insertionSort (fun a b => a ≤ b) (inds.map TechnicalIndicator.date).dedup := by
  have h1 : ((build_indicator_map inds).map Prod.fst).Perm
      (inds.map TechnicalIndicator.date).dedup := by
    rw [List.perm_ext_iff_of_nodup (keys_build_nodup inds) (List.nodup_dedup _)]
    intro a
    rw [List.mem_dedup]
    exact mem_keys_build inds a
  exact List.eq_of_perm_of_sorted
    ((List.perm_insertionSort _ _).trans (h1.trans (List.perm_insertionSort _ _).symm))
    (List.sorted_insertionSort _ _) (List.sorted_insertionSort _ _)

/-! ## Confluence vote facts -/

theorem rsi_vote_prop (ccfg : ConfluenceConfig) (m : DayMap) :
    ∀ v ∈ rsi_vote ccfg m,
      (v.direction = SignalDirection.Bullish ∨ v.direction = SignalDirection.Bearish) ∧
      0 ≤ v.strength ∧ v.strength ≤ 1 := by
  intro v hv
  unfold rsi_vote at hv
  split at hv
  · simp at hv
  · rename_i rsi hr
    split_ifs at hv with h1 h2
    · rw [List.mem_singleton] at hv
      subst hv
      exact ⟨Or.inl rfl, le_min (div_nonneg (by linarith) (by norm_num)) zero_le_one,
        min_le_right _ _⟩
    · rw [List.mem_singleton] at hv
      subst hv
      exact ⟨Or.inr rfl, le_min (div_nonneg (by linarith) (by norm_num)) zero_le_one,
        min_le_right _ _⟩
    · exact absurd hv (List.not_mem_nil v)

theorem macd_vote_prop (price : ℚ) (m : DayMap) :
    ∀ v ∈ macd_vote price m,
      (v.direction = SignalDirection.Bullish ∨ v.direction = SignalDirection.Bearish) ∧
      0 ≤ v.strength ∧ v.strength ≤ 1 := by
  intro v hv
  unfold macd_vote at hv
  split at hv
  · rename_i macd signal hm hs
    dsimp only at hv
    have hstr : (0:ℚ) ≤ min (abs (macd - signal) / max price 1 * 100) 1 :=
      le_min (mul_nonneg (div_nonneg (abs_nonneg _)
        (le_trans zero_le_one (le_max_right _ _))) (by norm_num)) zero_le_one
    split_ifs at hv with h1 h2
    · rw [List.mem_singleton] at hv
      subst hv
      exact ⟨Or.inl rfl, hstr, min_le_right _ _⟩
    · rw [List.mem_singleton] at hv
      subst hv
      exact ⟨Or.inr rfl, hstr, min_le_right _ _⟩
    · exact absurd hv (List.not_mem_nil v)
  · simp at hv

theorem bb_vote_prop (price : ℚ) (m : DayMap) :
    ∀ v ∈ bb_vote price m,
      (v.direction = SignalDirection.Bullish ∨ v.direction = SignalDirection.Bearish) ∧
      0 ≤ v.strength ∧ v.strength ≤ 1 := by
  intro v hv
  unfold bb_vote at hv
  split at hv
  · rename_i upper lower hu hl
    split_ifs at hv with h1 h2
    · dsimp only at hv
      rw [List.mem_singleton] at hv
      subst hv
      exact ⟨Or.inl rfl, le_min (div_nonneg (by linarith)
        (le_trans (by norm_num) (le_max_right _ _))) zero_le_one, min_le_right _ _⟩
    · dsimp only at hv
      rw [List.mem_singleton] at hv
      subst hv
      exact ⟨Or.inr rfl, le_min (div_nonneg (by linarith)
        (le_trans (by norm_num) (le_max_right _ _))) zero_le_one, min_le_right _ _⟩
    · exact absurd hv (List.not_mem_nil v)
  · simp at hv

theorem stoch_vote_prop (ccfg : ConfluenceConfig) (m : DayMap) :
    ∀ v ∈ stoch_vote ccfg m,
      (v.direction = SignalDirection.Bullish ∨ v.direction = SignalDirection.Bearish) ∧
      0 ≤ v.strength ∧ v.strength ≤ 1 := by
  intro v hv
  unfold stoch_vote at hv
  split at hv
  · simp at hv
  · rename_i k hk
    split_ifs at hv with h1 h2
    · rw [List.mem_singleton] at hv
      subst hv
      exact ⟨Or.inl rfl, le_min (div_nonneg (by linarith) (by norm_num)) zero_le_one,
        min_le_right _ _⟩
    · rw [List.mem_singleton] at hv
      subst hv
      exact ⟨Or.inr rfl, le_min (div_nonneg (by linarith) (by norm_num)) zero_le_one,
        min_le_right _ _⟩
    · exact absurd hv (List.not_mem_nil v)

theorem cci_vote_prop (ccfg : ConfluenceConfig) (m : DayMap) :
    ∀ v ∈ cci_vote ccfg m,
      (v.direction = SignalDirection.Bullish ∨ v.direction = SignalDirection.Bearish) ∧
      0 ≤ v.strength ∧ v.strength ≤ 1 := by
  intro v hv
  unfold cci_vote at hv
  split at hv
  · simp at hv
  · rename_i cci hc
    split_ifs at hv with h1 h2
    · rw [List.mem_singleton] at hv
      subst hv
      exact ⟨Or.inl rfl, le_min (abs_nonneg _) zero_le_one, min_le_right _ _⟩
    · rw [List.mem_singleton] at hv
      subst hv
      exact ⟨Or.inr rfl, le_min (abs_nonneg _) zero_le_one, min_le_right _ _⟩
    · exact absurd hv (List.not_mem_nil v)

theorem confluence_votes_prop (ccfg : ConfluenceConfig) (price : ℚ) (m : DayMap) :
    ∀ v ∈ confluence_votes ccfg price m,
      (v.direction = SignalDirection.Bullish ∨ v.direction = SignalDirection.Bearish) ∧
      0 ≤ v.strength ∧ v.strength ≤ 1 := by
  intro v hv
  unfold confluence_votes at hv
  rcases List.mem_append.mp hv with hv | h5
  · rcases List.mem_append.mp hv with hv | h4
    · rcases List.mem_append.mp hv with hv | h3
      · rcases List.mem_append.mp hv with h1 | h2
        · exact rsi_vote_prop ccfg m v h1
        · exact macd_vote_prop price m v h2
      · exact bb_vote_prop price m v h3
    · exact stoch_vote_prop ccfg m v h4
  · exact cci_vote_prop ccfg m v h5

theorem rsi_vote_length (ccfg : ConfluenceConfig) (m : DayMap) :
    (rsi_vote ccfg m).length ≤ 1 := by
  unfold rsi_vote
  split
  · simp
  · split_ifs <;> simp

theorem macd_vote_length (price : ℚ) (m : DayMap) :
    (macd_vote price m).length ≤ 1 := by
  unfold macd_vote
  split
  · dsimp only
    split_ifs <;> simp
  · simp

theorem bb_vote_length (price : ℚ) (m : DayMap) :
    (bb_vote price m).length ≤ 1 := by
  unfold bb_vote
  split
  · split_ifs <;> simp
  · simp

theorem stoch_vote_length (ccfg : ConfluenceConfig) (m : DayMap) :
    (stoch_vote ccfg m).length ≤ 1 := by
  unfold stoch_vote
  split
  · simp
  · split_ifs <;> simp

theorem cci_vote_length (ccfg : ConfluenceConfig) (m : DayMap) :
    (cci_vote ccfg m).length ≤ 1 := by
  unfold cci_vote
  split
  · simp
  · split_ifs <;> simp

/-- Each of the five voting sources contributes at most one vote. -/
theorem confluence_votes_length (ccfg : ConfluenceConfig) (price : ℚ) (m : DayMap) :
    (confluence_votes ccfg price m).length ≤ 5 := by
  unfold confluence_votes
  simp only [List.length_append]
  have h1 := rsi_vote_length ccfg m
  have h2 := macd_vote_length price m
  have h3 := bb_vote_length price m
  have h4 := stoch_vote_length ccfg m
  have h5 := cci_vote_length ccfg m
  omega

theorem length_filter_add_length_filter_le {α : Type} (p q : α → Bool)
    (hpq : ∀ x, ¬(p x = true ∧ q x = true)) :
    ∀ l : List α, (l.filter p).length + (l.filter q).length ≤ l.length := by
  intro l
  induction l with
  | nil => simp
  | cons x rest ih =>
    simp only [List.filter_cons]
    by_cases hp : p x = true
    · have hq : ¬ q x = true := fun h => hpq x ⟨hp, h⟩
      simp only [if_pos hp, if_neg hq, List.length_cons]
      omega
    · by_cases hq : q x = true
      · simp only [if_neg hp, if_pos hq, List.length_cons]
        omega
      · simp only [if_neg hp, if_neg hq, List.length_cons]
        omega

theorem adx_confidence_of_eq_some (ccfg : ConfluenceConfig) (m : DayMap) (a : ℚ) :
    adx_confidence_of ccfg m = some a ↔
      lookupName m "ADX_14" = some a ∧ ccfg.adx_strong_trend < a := by
  unfold adx_confidence_of
  cases h : lookupName m "ADX_14" with
  | none => simp [Option.filter]
  | some b =>
    by_cases hb : ccfg.adx_strong_trend < b
    · simp only [Option.filter, hb, decide_True, if_true]
      constructor
      · intro hh
        exact ⟨hh, (Option.some.inj hh) ▸ hb⟩
      · exact fun hh => hh.1
    · simp only [Option.filter, hb, decide_False, if_false]
      constructor
      · intro hh; exact Option.noConfusion hh
      · intro hh
        exact absurd ((Option.some.inj hh.1) ▸ hh.2) hb

theorem avg_strength_bounds {vs : List IndicatorVote} (dir : SignalDirection)
    (hprop : ∀ v ∈ vs, 0 ≤ v.strength ∧ v.strength ≤ 1)
    (hlen : 1 ≤ (votesIn dir vs).length) :
    0 ≤ ((votesIn dir vs).map IndicatorVote.strength).sum / (((votesIn dir vs).length : ℕ) : ℚ) ∧
      ((votesIn dir vs).map IndicatorVote.strength).sum / (((votesIn dir vs).length : ℕ) : ℚ) ≤ 1 := by
  have hmem : ∀ v ∈ votesIn dir vs, 0 ≤ v.strength ∧ v.strength ≤ 1 :=
    fun v hv => hprop v (List.mem_of_mem_filter hv)
  have hsum0 : 0 ≤ ((votesIn dir vs).map IndicatorVote.strength).sum := by
    apply List.sum_nonneg
    intro x hx
    obtain ⟨v, hv, rfl⟩ := List.mem_map.mp hx
    exact (hmem v hv).1
  have hsum1 : ((votesIn dir vs).map IndicatorVote.strength).sum ≤
      ((votesIn dir vs).length : ℚ) := by
    have := List.sum_le_card_nsmul ((votesIn dir vs).map IndicatorVote.strength) 1
      (by
        intro x hx
        obtain ⟨v, hv, rfl⟩ := List.mem_map.mp hx
        exact (hmem v hv).2)
    simpa [nsmul_eq_mul] using this
  have hpos : (0:ℚ) < ((votesIn dir vs).length : ℚ) := by
    exact_mod_cast lt_of_lt_of_le Nat.zero_lt_one hlen
  exact ⟨div_nonneg hsum0 (le_of_lt hpos), (div_le_one hpos).mpr hsum1⟩

theorem finalStrength_bounds {ccfg : ConfluenceConfig} {m : DayMap} {base : ℚ}
    (hadx : 0 ≤ ccfg.adx_strong_trend) (hb0 : 0 ≤ base) (hb1 : base ≤ 1) :
    0 ≤ finalStrength (adx_confidence_of ccfg m) base ∧
      finalStrength (adx_confidence_of ccfg m) base ≤ 1 := by
  cases h : adx_confidence_of ccfg m with
  | none => exact ⟨hb0, hb1⟩
  | some a =>
    obtain ⟨_, ha⟩ := (adx_confidence_of_eq_some ccfg m a).mp h
    have ha0 : 0 < a := lt_of_le_of_lt hadx ha
    unfold finalStrength
    refine ⟨le_min (mul_nonneg hb0 (le_min (by positivity) (by norm_num))) zero_le_one,
      min_le_right _ _⟩

theorem detect_confluence_strength_bounds {ccfg : ConfluenceConfig} {symbol : String}
    {date : ℤ} {price : ℚ} {m : DayMap} {sig : ConfluenceSignal}
    (hadx : 0 ≤ ccfg.adx_strong_trend) (hmin : 1 ≤ ccfg.min_agreeing_indicators)
    (h : detect_confluence_signal ccfg symbol date price m = some sig) :
    0 ≤ sig.strength ∧ sig.strength ≤ 1 := by
  have hprop := fun v hv => (confluence_votes_prop ccfg price m v hv).2
  unfold detect_confluence_signal at h
  dsimp only at h
  split_ifs at h with h1 h2
  · have hsig := (Option.some.inj h).symm
    have hlen : 1 ≤ (votesIn SignalDirection.Bullish (confluence_votes ccfg price m)).length :=
      le_trans hmin h1
    obtain ⟨hb0, hb1⟩ := avg_strength_bounds SignalDirection.Bullish hprop hlen
    rw [hsig]
    exact finalStrength_bounds hadx hb0 hb1
  · have hsig := (Option.some.inj h).symm
    have hlen : 1 ≤ (votesIn SignalDirection.Bearish (confluence_votes ccfg price m)).length :=
      le_trans hmin h2
    obtain ⟨hb0, hb1⟩ := avg_strength_bounds SignalDirection.Bearish hprop hlen
    rw [hsig]
    exact finalStrength_bounds hadx hb0 hb1

/-! ## Claim theorems -/

/-- C9: `build_indicator_map` maps every date occurring in the input to the
map sending each indicator name to its value, where for duplicate
(date, name) pairs the occurrence appearing later in the input order wins
(last-write-wins); the construction is a total function of its input (no
side effects, no failure modes). -/
theorem build_map_last_write_wins :
    ∀ (inds : List TechnicalIndicator) (d : ℤ) (n : String),
      getVal (build_indicator_map inds) d n =
        ((inds.filter (fun i => decide (i.date = d) && decide (i.indicator_name = n))).getLast?).map
          TechnicalIndicator.value ∧
      ((lookupDate (build_indicator_map inds) d).isSome = true ↔
        d ∈ inds.map TechnicalIndicator.date) :=
  fun inds d n => ⟨getVal_build inds d n,
    (lookupDate_isSome_iff _ d).trans (mem_keys_build inds d)⟩

/-- C3 (amended): the RSI detector emits `RsiOverbought`/Bearish exactly when
today's RSI_14 exists, is strictly above `rsi_overbought`, and the previous
value (if any) was not above it; when RSI_14 is absent it abstains.  The
symmetric `RsiOversold`/Bullish characterization additionally needs
`rsi_oversold ≤ rsi_overbought` (as in the default config): with an inverted
configuration the overbought branch is checked first and wins. -/
theorem rsi_detector_iff :
    ∀ (cfg : SignalConfig) (symbol : String) (date : ℤ) (price : ℚ)
      (today : DayMap) (prev : Option DayMap),
      ((∃ sig, detect_rsi_signal cfg symbol date price today prev = some sig ∧
          sig.signal_type = SignalType.RsiOverbought ∧
          sig.direction = SignalDirection.Bearish) ↔
        (∃ rsi, lookupName today "RSI_14" = some rsi ∧ cfg.rsi_overbought < rsi ∧
          ∀ p, prev.bind (fun mp => lookupName mp "RSI_14") = some p →
            p ≤ cfg.rsi_overbought)) ∧
      (cfg.rsi_oversold ≤ cfg.rsi_overbought →
        ((∃ sig, detect_rsi_signal cfg symbol date price today prev = some sig ∧
            sig.signal_type = SignalType.RsiOversold ∧
            sig.direction = SignalDirection.Bullish) ↔
          (∃ rsi, lookupName today "RSI_14" = some rsi ∧ rsi < cfg.rsi_oversold ∧
            ∀ p, prev.bind (fun mp => lookupName mp "RSI_14") = some p →
              cfg.rsi_oversold ≤ p))) ∧
      (lookupName today "RSI_14" = none →
        detect_rsi_signal cfg symbol date price today prev = none) := by
  intro cfg symbol date price today prev
  refine ⟨⟨?_, ?_⟩, fun hno => ⟨?_, ?_⟩, ?_⟩
  · rintro ⟨sig, hsig, hty, _⟩
    rcases thresholdDetect_eq_some hsig with ⟨v, hv, ⟨hgt, hp, rfl⟩ | ⟨_, _, _, rfl⟩⟩
    · exact ⟨v, hv, hgt, hp⟩
    · exact absurd hty (by simp [mkSignal])
  · rintro ⟨rsi, hr, hgt, hprev⟩
    refine ⟨mkSignal symbol SignalType.RsiOverbought SignalDirection.Bearish
      (min ((rsi - cfg.rsi_overbought) / 30) 1) price rsi "RSI_14" date, ?_, rfl, rfl⟩
    unfold detect_rsi_signal thresholdDetect
    rw [hr]
    dsimp only
    rw [if_pos hgt]
    cases hpv : prev.bind (fun mp => lookupName mp "RSI_14") with
    | none => rfl
    | some p =>
      dsimp only
      rw [if_pos (hprev p hpv)]
  · rintro ⟨sig, hsig, hty, _⟩
    rcases thresholdDetect_eq_some hsig with ⟨v, hv, ⟨_, _, rfl⟩ | ⟨_, hlt, hp, rfl⟩⟩
    · exact absurd hty (by simp [mkSignal])
    · exact ⟨v, hv, hlt, hp⟩
  · rintro ⟨rsi, hr, hlt, hprev⟩
    refine ⟨mkSignal symbol SignalType.RsiOversold SignalDirection.Bullish
      (min ((cfg.rsi_oversold - rsi) / 30) 1) price rsi "RSI_14" date, ?_, rfl, rfl⟩
    unfold detect_rsi_signal thresholdDetect
    rw [hr]
    dsimp only
    rw [if_neg (not_lt.mpr (le_of_lt (lt_of_lt_of_le hlt hno))), if_pos hlt]
    cases hpv : prev.bind (fun mp => lookupName mp "RSI_14") with
    | none => rfl
    | some p =>
      dsimp only
      rw [if_pos (hprev p hpv)]
  · intro h
    unfold detect_rsi_signal thresholdDetect
    rw [h]

/-- An inverted RSI configuration (`rsi_oversold` above `rsi_overbought`),
allowed by the configuration surface. -/
def cfgInv : SignalConfig :=
  { SignalConfig.default with rsi_overbought := 40, rsi_oversold := 50 }

/-- C3 counterexample: under the inverted configuration (overbought 40,
oversold 50), RSI = 45 with no previous day satisfies the claim's oversold
condition (45 < 50, no previous value) but the detector emits
`RsiOverbought` instead of `RsiOversold`: the claimed equivalence is false
for this configuration. -/
theorem rsi_detector_iff_counterexample :
    ¬ ((∃ sig, detect_rsi_signal cfgInv "S" 1 100 [("RSI_14", 45)] none = some sig ∧
        sig.signal_type = SignalType.RsiOversold ∧
        sig.direction = SignalDirection.Bullish) ↔
      (∃ rsi, lookupName [("RSI_14", 45)] "RSI_14" = some rsi ∧
        rsi < cfgInv.rsi_oversold ∧
        ∀ p, (none : Option DayMap).bind (fun mp => lookupName mp "RSI_14") = some p →
          cfgInv.rsi_oversold ≤ p)) := by
  intro h
  obtain ⟨sig, hs, hty, _⟩ := h.mpr
    ⟨45, by simp [lookupName], by norm_num [cfgInv, SignalConfig.default],
      fun p hp => Option.noConfusion hp⟩
  rcases thresholdDetect_eq_some hs with ⟨v, hv, ⟨_, _, rfl⟩ | ⟨hnot, _, _, rfl⟩⟩
  · exact absurd hty (by simp [mkSignal])
  · simp only [lookupName, if_pos rfl] at hv
    exact hnot ((Option.some.inj hv) ▸
      (by norm_num [cfgInv, SignalConfig.default] : cfgInv.rsi_overbought < (45:ℚ)))

/-- C3 witness: the default configuration satisfies the amended hypothesis,
and the cold-start example fires: a single date with RSI = 75 and no prior
date emits `RsiOverbought` with strength 5/30. -/
theorem rsi_detector_iff_witness :
    (SignalConfig.default.rsi_oversold ≤ SignalConfig.default.rsi_overbought ∧
      ((∃ sig, detect_rsi_signal SignalConfig.default "S" 1 100 [("RSI_14", 75)] none =
            some sig ∧
          sig.signal_type = SignalType.RsiOversold ∧
          sig.direction = SignalDirection.Bullish) ↔
        (∃ rsi, lookupName [("RSI_14", 75)] "RSI_14" = some rsi ∧
          rsi < SignalConfig.default.rsi_oversold ∧
          ∀ p, (none : Option DayMap).bind (fun mp => lookupName mp "RSI_14") = some p →
            SignalConfig.default.rsi_oversold ≤ p))) ∧
    (∃ sig, detect_rsi_signal SignalConfig.default "S" 1 100 [("RSI_14", 75)] none =
        some sig ∧
      sig.signal_type = SignalType.RsiOverbought ∧ sig.strength = 5/30) := by
  constructor
  · exact ⟨by norm_num [SignalConfig.default],
      (rsi_detector_iff SignalConfig.default "S" 1 100 [("RSI_14", 75)] none).2.1
        (by norm_num [SignalConfig.default])⟩
  · refine ⟨mkSignal "S" SignalType.RsiOverbought SignalDirection.Bearish
      (min ((75 - SignalConfig.default.rsi_overbought) / 30) 1) 100 75 "RSI_14" 1,
      ?_, rfl, ?_⟩
    · unfold detect_rsi_signal thresholdDetect
      rw [show lookupName [("RSI_14", 75)] "RSI_14" = some 75 from by simp [lookupName]]
      dsimp only
      rw [if_pos (by norm_num [SignalConfig.default] :
        SignalConfig.default.rsi_overbought < (75:ℚ))]
      rfl
    · show min ((75 - SignalConfig.default.rsi_overbought) / 30) 1 = 5/30
      norm_num [SignalConfig.default]

/-- C4: the confluence decision is taken in fixed priority order: a bullish
quorum wins with base strength the average bullish vote strength (then the
ADX multiplier), else a bearish quorum wins likewise, else no event is
produced. -/
theorem confluence_decision_rule :
    ∀ (ccfg : ConfluenceConfig) (symbol : String) (date : ℤ) (price : ℚ) (m : DayMap),
      (ccfg.min_agreeing_indicators ≤
          (votesIn SignalDirection.Bullish (confluence_votes ccfg price m)).length →
        ∃ sig, detect_confluence_signal ccfg symbol date price m = some sig ∧
          sig.direction = SignalDirection.Bullish ∧
          sig.strength = finalStrength (adx_confidence_of ccfg m)
            (((votesIn SignalDirection.Bullish (confluence_votes ccfg price m)).map
                IndicatorVote.strength).sum /
              ((votesIn SignalDirection.Bullish (confluence_votes ccfg price m)).length : ℚ))) ∧
      ((votesIn SignalDirection.Bullish (confluence_votes ccfg price m)).length <
          ccfg.min_agreeing_indicators →
        ccfg.min_agreeing_indicators ≤
          (votesIn SignalDirection.Bearish (confluence_votes ccfg price m)).length →
        ∃ sig, detect_confluence_signal ccfg symbol date price m = some sig ∧
          sig.direction = SignalDirection.Bearish ∧
          sig.strength = finalStrength (adx_confidence_of ccfg m)
            (((votesIn SignalDirection.Bearish (confluence_votes ccfg price m)).map
                IndicatorVote.strength).sum /
              ((votesIn SignalDirection.Bearish (confluence_votes ccfg price m)).length : ℚ))) ∧
      ((votesIn SignalDirection.Bullish (confluence_votes ccfg price m)).length <
          ccfg.min_agreeing_indicators →
        (votesIn SignalDirection.Bearish (confluence_votes ccfg price m)).length <
          ccfg.min_agreeing_indicators →
        detect_confluence_signal ccfg symbol date price m = none) := by
  intro ccfg symbol date price m
  refine ⟨fun hb => ?_, fun hb hs => ?_, fun hb hs => ?_⟩
  · unfold detect_confluence_signal
    dsimp only
    rw [if_pos hb]
    exact ⟨_, rfl, rfl, rfl⟩
  · unfold detect_confluence_signal
    dsimp only
    rw [if_neg (not_le.mpr hb), if_pos hs]
    exact ⟨_, rfl, rfl, rfl⟩
  · unfold detect_confluence_signal
    dsimp only
    rw [if_neg (not_le.mpr hb), if_neg (not_le.mpr hs)]

/-- The insufficient-agreement example map: RSI bullish, MACD bearish,
Stochastic bullish, CCI neutral, price inside the bands. -/
def mMixed : DayMap :=
  [("RSI_14", 25), ("MACD_12_26", 1/2), ("MACD_SIGNAL_9", 1), ("STOCH_K_14", 15),
   ("CCI_20", 50), ("BB_UPPER_20", 110), ("BB_LOWER_20", 90)]

/-- C4 witness: two agreeing bullish votes and one bearish vote with a
minimum of three yield no confluence event. -/
theorem confluence_decision_rule_witness :
    (votesIn SignalDirection.Bullish (confluence_votes ConfluenceConfig.default 100 mMixed)).length = 2 ∧
    (votesIn SignalDirection.Bearish (confluence_votes ConfluenceConfig.default 100 mMixed)).length = 1 ∧
    detect_confluence_signal ConfluenceConfig.default "MSFT" 1 100 mMixed = none := by
  have hb : (votesIn SignalDirection.Bullish
      (confluence_votes ConfluenceConfig.default 100 mMixed)).length = 2 := by
    norm_num +decide [confluence_votes, rsi_vote, macd_vote, bb_vote, stoch_vote,
      cci_vote, lookupName, mMixed, ConfluenceConfig.default, votesIn, List.filter]
  have hs : (votesIn SignalDirection.Bearish
      (confluence_votes ConfluenceConfig.default 100 mMixed)).length = 1 := by
    norm_num +decide [confluence_votes, rsi_vote, macd_vote, bb_vote, stoch_vote,
      cci_vote, lookupName, mMixed, ConfluenceConfig.default, votesIn, List.filter]
  refine ⟨hb, hs,
    (confluence_decision_rule ConfluenceConfig.default "MSFT" 1 100 mMixed).2.2
      (by rw [hb]; norm_num [ConfluenceConfig.default])
      (by rw [hs]; norm_num [ConfluenceConfig.default])⟩

/-- The identical bullish vote set of the ADX-boost example, with a weak
(15) and a strong (40) ADX value. -/
def mAdx15 : DayMap :=
  [("RSI_14", 25), ("MACD_12_26", 3/2), ("MACD_SIGNAL_9", 1), ("STOCH_K_14", 15),
   ("CCI_20", -150), ("ADX_14", 15)]

def mAdx40 : DayMap :=
  [("RSI_14", 25), ("MACD_12_26", 3/2), ("MACD_SIGNAL_9", 1), ("STOCH_K_14", 15),
   ("CCI_20", -150), ("ADX_14", 40)]

theorem detect_mAdx15_eval :
    detect_confluence_signal ConfluenceConfig.default "T" 1 100 mAdx15 =
      some { id := 0, symbol := "T", date := 1
             direction := SignalDirection.Bullish, strength := 17/48
             contributing_indicators :=
               confluence_votes ConfluenceConfig.default 100 mAdx15
             bullish_count := 4, bearish_count := 0
             adx_confidence := none, price_at_signal := 100, created_at := "" } := by
  unfold detect_confluence_signal
  norm_num +decide [confluence_votes, rsi_vote, macd_vote, bb_vote, stoch_vote,
    cci_vote, lookupName, mAdx15, ConfluenceConfig.default, votesIn, List.filter,
    adx_confidence_of, Option.filter, finalStrength]
  norm_num [abs_of_nonneg, min_def]

theorem detect_mAdx40_eval :
    detect_confluence_signal ConfluenceConfig.default "T" 1 100 mAdx40 =
      some { id := 0, symbol := "T", date := 1
             direction := SignalDirection.Bullish, strength := 17/30
             contributing_indicators :=
               confluence_votes ConfluenceConfig.default 100 mAdx40
             bullish_count := 4, bearish_count := 0
             adx_confidence := some 40, price_at_signal := 100, created_at := "" } := by
  unfold detect_confluence_signal
  norm_num +decide [confluence_votes, rsi_vote, macd_vote, bb_vote, stoch_vote,
    cci_vote, lookupName, mAdx40, ConfluenceConfig.default, votesIn, List.filter,
    adx_confidence_of, Option.filter, finalStrength]
  norm_num [abs_of_nonneg, min_def]

/-- C5: in every emitted confluence record, `adx_confidence` is `some adx`
exactly when ADX_14 is present and strictly above the confluence
`adx_strong_trend` threshold, and the emitted strength is the winning side's
average vote strength put through the ADX multiplier
(`min(1, base*min(2, adx/25))` when a confidence value exists, the base
strength otherwise); with the default thresholds the identical vote set
under ADX = 15 reports no confidence and under ADX = 40 reports `some 40`
with at least the former's strength. -/
theorem adx_confidence_rule :
    (∀ (ccfg : ConfluenceConfig) (symbol : String) (date : ℤ) (price : ℚ)
        (m : DayMap) (sig : ConfluenceSignal),
        detect_confluence_signal ccfg symbol date price m = some sig →
        (∀ a : ℚ, sig.adx_confidence = some a ↔
          (lookupName m "ADX_14" = some a ∧ ccfg.adx_strong_trend < a)) ∧
        sig.strength = finalStrength sig.adx_confidence
          (((votesIn sig.direction (confluence_votes ccfg price m)).map
              IndicatorVote.strength).sum /
            ((votesIn sig.direction (confluence_votes ccfg price m)).length : ℚ))) ∧
    ((detect_confluence_signal ConfluenceConfig.default "T" 1 100 mAdx15).map
        (fun s => (s.adx_confidence, s.strength)) = some (none, 17/48) ∧
      (detect_confluence_signal ConfluenceConfig.default "T" 1 100 mAdx40).map
        (fun s => (s.adx_confidence, s.strength)) = some (some 40, 17/30) ∧
      (17/48 : ℚ) ≤ 17/30) := by
  constructor
  · intro ccfg symbol date price m sig h
    unfold detect_confluence_signal at h
    dsimp only at h
    split_ifs at h with h1 h2
    · rw [(Option.some.inj h).symm]
      exact ⟨fun a => adx_confidence_of_eq_some ccfg m a, rfl⟩
    · rw [(Option.some.inj h).symm]
      exact ⟨fun a => adx_confidence_of_eq_some ccfg m a, rfl⟩
  · refine ⟨?_, ?_, by norm_num⟩
    · rw [detect_mAdx15_eval]
      rfl
    · rw [detect_mAdx40_eval]
      rfl

/-- C5 witness: the general characterization applied to the strong-ADX
concrete evaluation. -/
theorem adx_confidence_rule_witness :
    ∃ sig, detect_confluence_signal ConfluenceConfig.default "T" 1 100 mAdx40 = some sig ∧
      ((∀ a : ℚ, sig.adx_confidence = some a ↔
          (lookupName mAdx40 "ADX_14" = some a ∧
            ConfluenceConfig.default.adx_strong_trend < a)) ∧
        sig.strength = finalStrength sig.adx_confidence
          (((votesIn sig.direction (confluence_votes ConfluenceConfig.default 100 mAdx40)).map
              IndicatorVote.strength).sum /
            ((votesIn sig.direction
                (confluence_votes ConfluenceConfig.default 100 mAdx40)).length : ℚ))) := by
  cases h : detect_confluence_signal ConfluenceConfig.default "T" 1 100 mAdx40 with
  | none => exact absurd (detect_mAdx40_eval.symm.trans h) (by simp)
  | some sig => exact ⟨sig, rfl, adx_confidence_rule.1 ConfluenceConfig.default "T" 1 100 mAdx40 sig h⟩

/-- C7 (amended): with a minimum-agreement count of at least 3 (as exercised
by the reference tests), the bullish and bearish counts can never both meet
the minimum, because each of the five voting sources contributes at most one
vote in exactly one direction (so at most five votes exist in total); with a
minimum of 2 both sides can meet it simultaneously. -/
theorem confluence_no_double_quorum :
    ∀ (ccfg : ConfluenceConfig) (price : ℚ) (m : DayMap),
      3 ≤ ccfg.min_agreeing_indicators →
      ¬ (ccfg.min_agreeing_indicators ≤
          (votesIn SignalDirection.Bullish (confluence_votes ccfg price m)).length ∧
        ccfg.min_agreeing_indicators ≤
          (votesIn SignalDirection.Bearish (confluence_votes ccfg price m)).length) := by
  intro ccfg price m hmin
  rintro ⟨hb, hs⟩
  have hd := length_filter_add_length_filter_le
    (fun v => decide (v.direction = SignalDirection.Bullish))
    (fun v => decide (v.direction = SignalDirection.Bearish))
    (fun v => by
      simp only [decide_eq_true_eq]
      rintro ⟨h1, h2⟩
      rw [h1] at h2
      exact SignalDirection.noConfusion h2)
    (confluence_votes ccfg price m)
  have h5 := confluence_votes_length ccfg price m
  unfold votesIn at hb hs
  omega

/-- The default confluence thresholds with the minimum-agreement count
lowered to 2. -/
def ccfgMin2 : ConfluenceConfig :=
  { ConfluenceConfig.default with min_agreeing_indicators := 2 }

/-- A day on which two sources vote bullish (RSI, Stochastic) and two vote
bearish (MACD, CCI). -/
def mBoth : DayMap :=
  [("RSI_14", 25), ("MACD_12_26", 1/2), ("MACD_SIGNAL_9", 1), ("STOCH_K_14", 15),
   ("CCI_20", 150)]

/-- C7 counterexample: with `min_agreeing_indicators = 2` both directions
meet the minimum simultaneously, so the claim's unrestricted "for any
minimum" reading is false. -/
theorem confluence_no_double_quorum_counterexample :
    ccfgMin2.min_agreeing_indicators ≤
      (votesIn SignalDirection.Bullish (confluence_votes ccfgMin2 100 mBoth)).length ∧
    ccfgMin2.min_agreeing_indicators ≤
      (votesIn SignalDirection.Bearish (confluence_votes ccfgMin2 100 mBoth)).length := by
  have hb : (votesIn SignalDirection.Bullish
      (confluence_votes ccfgMin2 100 mBoth)).length = 2 := by
    norm_num +decide [confluence_votes, rsi_vote, macd_vote, bb_vote, stoch_vote,
      cci_vote, lookupName, mBoth, ccfgMin2, ConfluenceConfig.default, votesIn,
      List.filter]
  have hs : (votesIn SignalDirection.Bearish
      (confluence_votes ccfgMin2 100 mBoth)).length = 2 := by
    norm_num +decide [confluence_votes, rsi_vote, macd_vote, bb_vote, stoch_vote,
      cci_vote, lookupName, mBoth, ccfgMin2, ConfluenceConfig.default, votesIn,
      List.filter]
  rw [hb, hs]
  norm_num [ccfgMin2, ConfluenceConfig.default]

/-- C7 witness: the amended statement applied at the default configuration. -/
theorem confluence_no_double_quorum_witness :
    3 ≤ ConfluenceConfig.default.min_agreeing_indicators ∧
    ¬ (ConfluenceConfig.default.min_agreeing_indicators ≤
        (votesIn SignalDirection.Bullish
          (confluence_votes ConfluenceConfig.default 100 mBoth)).length ∧
      ConfluenceConfig.default.min_agreeing_indicators ≤
        (votesIn SignalDirection.Bearish
          (confluence_votes ConfluenceConfig.default 100 mBoth)).length) :=
  ⟨by norm_num [ConfluenceConfig.default],
    confluence_no_double_quorum ConfluenceConfig.default 100 mBoth
      (by norm_num [ConfluenceConfig.default])⟩

/-- Every value found in a built day map comes from some input row with that
indicator name. -/
theorem getVal_mem_of_some {inds : List TechnicalIndicator} {d : ℤ} {n : String} {v : ℚ}
    (h : getVal (build_indicator_map inds) d n = some v) :
    ∃ i ∈ inds, i.indicator_name = n ∧ i.value = v := by
  rw [getVal_build] at h
  obtain ⟨i, hi, hiv⟩ := Option.map_eq_some'.mp h
  have hopt : i ∈ (inds.filter
      (fun j => decide (j.date = d) && decide (j.indicator_name = n))).getLast? := by
    rw [hi]; rfl
  obtain ⟨hne, heq⟩ := List.mem_getLast?_eq_getLast hopt
  have hmem : i ∈ inds.filter
      (fun j => decide (j.date = d) && decide (j.indicator_name = n)) := by
    rw [heq]; exact List.getLast_mem hne
  obtain ⟨hin, hpred⟩ := List.mem_filter.mp hmem
  simp only [Bool.and_eq_true, decide_eq_true_eq] at hpred
  exact ⟨i, hin, hpred.2, hiv⟩

/-- C1 (amended): every individual signal strength is at most 1 (the min
clamp) and is moreover nonnegative, hence in [0,1], whenever every SMA_50
input value is positive — the MA-crossover strength divides by the slow SMA
without a lower clamp, so a nonpositive slow SMA can drive it below 0; every
emitted confluence strength lies in [0,1] whenever the confluence
adx_strong_trend threshold is nonnegative and at least one agreeing
indicator is required (both hold for the defaults). -/
theorem strength_in_unit_interval :
    (∀ (cfg : SignalConfig) (symbol : String) (inds : List TechnicalIndicator)
        (prices : List DailyPrice) (s : Signal),
        s ∈ generate_signals cfg symbol inds prices →
        s.strength ≤ 1 ∧
        ((∀ i ∈ inds, i.indicator_name = "SMA_50" → 0 < i.value) → 0 ≤ s.strength)) ∧
    (∀ (ccfg : ConfluenceConfig) (symbol : String) (date : ℤ) (price : ℚ)
        (m : DayMap) (sig : ConfluenceSignal),
        0 ≤ ccfg.adx_strong_trend → 1 ≤ ccfg.min_agreeing_indicators →
        detect_confluence_signal ccfg symbol date price m = some sig →
        0 ≤ sig.strength ∧ sig.strength ≤ 1) := by
  constructor
  · intro cfg symbol inds prices s hs
    unfold generate_signals at hs
    split_ifs at hs with hemp
    · exact absurd hs (List.not_mem_nil s)
    · obtain ⟨d, m, pm, hl, hsf⟩ := genLoop_mem hs
      have hmacd : ∀ a b : ℚ, 0 ≤ abs (a - b) / max (priceOrZero prices d) 1 * 100 :=
        fun a b => mul_nonneg (div_nonneg (abs_nonneg _)
          (le_trans zero_le_one (le_max_right _ _))) (by norm_num)
      constructor
      · rcases mem_signalsForDate.mp hsf with h | h | h | h | h | h | h | h | h
        · exact (thresholdDetect_strength (by norm_num) (by norm_num) h).2
        · exact crossoverDetect_strength_le_one h
        · exact (bollinger_strength h).2
        · exact crossoverDetect_strength_le_one h
        · exact (thresholdDetect_strength (by norm_num) (by norm_num) h).2
        · exact crossoverDetect_strength_le_one h
        · exact (thresholdDetect_strength (by norm_num) (by norm_num) h).2
        · exact (thresholdDetect_strength (by norm_num) (by norm_num) h).2
        · exact (thresholdDetect_strength (by norm_num) (by norm_num) h).2
      · intro hpos
        have hsma : ∀ v, lookupName m "SMA_50" = some v → 0 < v := by
          intro v hv
          have hg : getVal (build_indicator_map inds) d "SMA_50" = some v := by
            unfold getVal
            rw [hl]
            exact hv
          obtain ⟨i, hi, hname, hval⟩ := getVal_mem_of_some hg
          exact hval ▸ hpos i hi hname
        rcases mem_signalsForDate.mp hsf with h | h | h | h | h | h | h | h | h
        · exact (thresholdDetect_strength (by norm_num) (by norm_num) h).1
        · exact (crossoverDetect_strength (fun a b _ => hmacd a b)
            (fun a b _ => hmacd a b) h).1
        · exact (bollinger_strength h).1
        · exact ma_crossover_strength_nonneg h hsma
        · exact (thresholdDetect_strength (by norm_num) (by norm_num) h).1
        · exact (crossoverDetect_strength
            (fun a b _ => div_nonneg (abs_nonneg _) (by norm_num))
            (fun a b _ => div_nonneg (abs_nonneg _) (by norm_num)) h).1
        · exact (thresholdDetect_strength (by norm_num) (by norm_num) h).1
        · exact (thresholdDetect_strength (by norm_num) (by norm_num) h).1
        · exact (thresholdDetect_strength (by norm_num) (by norm_num) h).1
  · intro ccfg symbol date price m sig hadx hmin h
    exact detect_confluence_strength_bounds hadx hmin h

/-- Input for the C1 counterexample: negative moving averages with a golden
cross between date 1 and date 2. -/
def indsC1 : List TechnicalIndicator :=
  [{ date := 1, indicator_name := "SMA_20", value := -3 },
   { date := 1, indicator_name := "SMA_50", value := -2 },
   { date := 2, indicator_name := "SMA_20", value := -1 },
   { date := 2, indicator_name := "SMA_50", value := -2 }]

def pricesC1 : List DailyPrice :=
  [{ date := 1, openp := 100, high := 100, low := 100, close := 100, volume := 0 }]

theorem generate_signals_C1_eval :
    generate_signals SignalConfig.default "S" indsC1 pricesC1 =
      [mkSignal "S" SignalType.MaCrossoverBullish SignalDirection.Bullish (-50) 0 (-1)
        "SMA_20/50" 2] := by
  norm_num +decide [generate_signals, build_indicator_map, updateDate, insertPair,
    lookupDate, sortedKeys, List.insertionSort, List.orderedInsert, genLoop,
    signalsForDate, detect_rsi_signal, detect_macd_signal, detect_bollinger_signal,
    detect_ma_crossover_signal, detect_adx_signal, detect_stochastic_signal,
    detect_willr_signal, detect_cci_signal, detect_mfi_signal, thresholdDetect,
    crossoverDetect, lookupName, priceOrZero, lookupClose, mkSignal, indsC1, pricesC1,
    SignalConfig.default, List.foldl]

/-- C1 counterexample: with the default configuration, a golden cross of
negative SMAs (previous fast -3 and slow -2, today fast -1 and slow -2) emits an
`MaCrossoverBullish` signal of strength `(-1 - -2)/(-2)*100 = -50`, far
outside [0,1]: only the upper clamp exists. -/
theorem strength_in_unit_interval_counterexample :
    ∃ s ∈ generate_signals SignalConfig.default "S" indsC1 pricesC1,
      ¬ (0 ≤ s.strength ∧ s.strength ≤ 1) := by
  refine ⟨mkSignal "S" SignalType.MaCrossoverBullish SignalDirection.Bullish (-50) 0 (-1)
    "SMA_20/50" 2, ?_, fun hc => ?_⟩
  · rw [generate_signals_C1_eval]
    exact List.mem_singleton.mpr rfl
  · have h0 := hc.1
    norm_num [mkSignal] at h0

/-- Input for the C1 witness: a single date with one RSI value. -/
def indsW : List TechnicalIndicator := [{ date := 1, indicator_name := "RSI_14", value := 75 }]

def pricesW : List DailyPrice :=
  [{ date := 1, openp := 100, high := 100, low := 100, close := 100, volume := 0 }]

theorem generate_signals_W_eval :
    generate_signals SignalConfig.default "S" indsW pricesW =
      [mkSignal "S" SignalType.RsiOverbought SignalDirection.Bearish (1/6) 100 75
        "RSI_14" 1] := by
  norm_num +decide [generate_signals, build_indicator_map, updateDate, insertPair,
    lookupDate, sortedKeys, List.insertionSort, List.orderedInsert, genLoop,
    signalsForDate, detect_rsi_signal, detect_macd_signal, detect_bollinger_signal,
    detect_ma_crossover_signal, detect_adx_signal, detect_stochastic_signal,
    detect_willr_signal, detect_cci_signal, detect_mfi_signal, thresholdDetect,
    crossoverDetect, lookupName, priceOrZero, lookupClose, mkSignal, indsW, pricesW,
    SignalConfig.default, List.foldl]

/-- C1 witness: the amended bounds applied to a concrete signal and to a
concrete confluence evaluation. -/
theorem strength_in_unit_interval_witness :
    ((mkSignal "S" SignalType.RsiOverbought SignalDirection.Bearish (1/6) 100 75
        "RSI_14" 1).strength ≤ 1 ∧
      0 ≤ (mkSignal "S" SignalType.RsiOverbought SignalDirection.Bearish (1/6) 100 75
        "RSI_14" 1).strength) ∧
    (0 ≤ (17/30 : ℚ) ∧ (17/30 : ℚ) ≤ 1) := by
  constructor
  · have h := strength_in_unit_interval.1 SignalConfig.default "S" indsW pricesW
      (mkSignal "S" SignalType.RsiOverbought SignalDirection.Bearish (1/6) 100 75
        "RSI_14" 1)
      (by rw [generate_signals_W_eval]; exact List.mem_singleton.mpr rfl)
    refine ⟨h.1, h.2 ?_⟩
    intro i hi hname
    rw [List.mem_singleton.mp hi] at hname
    exact absurd hname (by decide)
  · have h := strength_in_unit_interval.2 ConfluenceConfig.default "T" 1 100 mAdx40 _
      (by norm_num [ConfluenceConfig.default]) (by norm_num [ConfluenceConfig.default])
      detect_mAdx40_eval
    exact ⟨h.1, h.2⟩

/-- C2 (amended): the engine never emits the same `SignalType` on two
consecutive dates of the index for the eight crossing detectors (the
previous-day guard fails on the second date); the Bollinger detector,
excluded here, is a pure level test and can repeat while the price stays
outside a band.  The RSI series [65, 72, 74, 68] behaves as claimed (see the
witness). -/
theorem no_repeat_on_consecutive_dates :
    ∀ (cfg : SignalConfig) (symbol : String) (inds : List TechnicalIndicator)
      (prices : List DailyPrice) (l1 l2 : List ℤ) (d1 d2 : ℤ) (t : SignalType),
      sortedKeys (build_indicator_map inds) = l1 ++ d1 :: d2 :: l2 →
      t ≠ SignalType.BollingerUpperBreak → t ≠ SignalType.BollingerLowerBreak →
      ¬ ((∃ s1 ∈ generate_signals cfg symbol inds prices,
            s1.timestamp = d1 ∧ s1.signal_type = t) ∧
         (∃ s2 ∈ generate_signals cfg symbol inds prices,
            s2.timestamp = d2 ∧ s2.signal_type = t)) := by
  intro cfg symbol inds prices l1 l2 d1 d2 t hsplit hbu hbl
  rintro ⟨⟨s1, hs1, hts1, hty1⟩, s2, hs2, hts2, hty2⟩
  unfold generate_signals at hs1 hs2
  split_ifs at hs1 hs2 with hemp
  · exact absurd hs1 (List.not_mem_nil _)
  · have hnd : (sortedKeys (build_indicator_map inds)).Nodup :=
      sortedKeys_build_nodup inds
    dsimp only at hs1 hs2
    rw [hsplit] at hnd hs1 hs2
    obtain ⟨m1, hm1, hsf1⟩ := genLoop_loc (l := l1) (r := d2 :: l2) hnd hs1 hts1
    have hsplit2 : l1 ++ d1 :: d2 :: l2 = (l1 ++ [d1]) ++ d2 :: l2 := by simp
    rw [hsplit2] at hnd hs2
    obtain ⟨m2, hm2, hsf2⟩ := genLoop_loc (l := l1 ++ [d1]) (r := l2) hnd hs2 hts2
    have hprev : prevMapOf (build_indicator_map inds) (l1 ++ [d1]) none = some m1 := by
      unfold prevMapOf
      rw [List.getLast?_concat]
      exact hm1
    rw [hprev] at hsf2
    have h1 := detectOfType_of_mem hsf1
    have h2 := detectOfType_of_mem hsf2
    rw [hty1] at h1
    rw [hty2] at h2
    cases t <;>
      first
        | exact hbu rfl
        | exact hbl rfl
        | exact thresholdDetect_no_repeat (by decide) h1 h2 (hty1.trans hty2.symm)
        | exact crossoverDetect_no_repeat (by decide) h1 h2 (hty1.trans hty2.symm)

/-- Two consecutive dates with identical Bollinger bands and a price above
the upper band on both. -/
def indsBB : List TechnicalIndicator :=
  [{ date := 1, indicator_name := "BB_UPPER_20", value := 10 },
   { date := 1, indicator_name := "BB_LOWER_20", value := 5 },
   { date := 1, indicator_name := "BB_MIDDLE_20", value := 7 },
   { date := 2, indicator_name := "BB_UPPER_20", value := 10 },
   { date := 2, indicator_name := "BB_LOWER_20", value := 5 },
   { date := 2, indicator_name := "BB_MIDDLE_20", value := 7 }]

def pricesBB : List DailyPrice :=
  [{ date := 1, openp := 20, high := 20, low := 20, close := 20, volume := 0 },
   { date := 2, openp := 20, high := 20, low := 20, close := 20, volume := 0 }]

theorem generate_signals_BB_eval :
    generate_signals SignalConfig.default "S" indsBB pricesBB =
      [mkSignal "S" SignalType.BollingerUpperBreak SignalDirection.Bearish 1 20 10
         "BB_UPPER_20" 1,
       mkSignal "S" SignalType.BollingerUpperBreak SignalDirection.Bearish 1 20 10
         "BB_UPPER_20" 2] := by
  norm_num +decide [generate_signals, build_indicator_map, updateDate, insertPair,
    lookupDate, sortedKeys, List.insertionSort, List.orderedInsert, genLoop,
    signalsForDate, detect_rsi_signal, detect_macd_signal, detect_bollinger_signal,
    detect_ma_crossover_signal, detect_adx_signal, detect_stochastic_signal,
    detect_willr_signal, detect_cci_signal, detect_mfi_signal, thresholdDetect,
    crossoverDetect, lookupName, priceOrZero, lookupClose, mkSignal, indsBB, pricesBB,
    SignalConfig.default, List.foldl]

/-- C2 counterexample: the Bollinger detector emits `BollingerUpperBreak` on
both of two consecutive index dates while the price simply stays above the
band, with no re-cross in between — the claim's "all nine detectors,
including the Bollinger detector" is false. -/
theorem no_repeat_counterexample :
    sortedKeys (build_indicator_map indsBB) = [] ++ 1 :: 2 :: [] ∧
    ((∃ s1 ∈ generate_signals SignalConfig.default "S" indsBB pricesBB,
        s1.timestamp = 1 ∧ s1.signal_type = SignalType.BollingerUpperBreak) ∧
     (∃ s2 ∈ generate_signals SignalConfig.default "S" indsBB pricesBB,
        s2.timestamp = 2 ∧ s2.signal_type = SignalType.BollingerUpperBreak)) := by
  refine ⟨?_, ⟨?_, ?_⟩⟩
  · norm_num +decide [sortedKeys, build_indicator_map, updateDate, insertPair,
      List.insertionSort, List.orderedInsert, indsBB, List.foldl]
  · exact ⟨mkSignal "S" SignalType.BollingerUpperBreak SignalDirection.Bearish 1 20 10
      "BB_UPPER_20" 1,
      by rw [generate_signals_BB_eval]; exact List.mem_cons_self _ _, rfl, rfl⟩
  · exact ⟨mkSignal "S" SignalType.BollingerUpperBreak SignalDirection.Bearish 1 20 10
      "BB_UPPER_20" 2,
      by rw [generate_signals_BB_eval]; exact List.mem_cons_of_mem _ (List.mem_cons_self _ _),
      rfl, rfl⟩

/-- The crossing-not-level RSI example: values 65, 72, 74, 68 on four
consecutive dates. -/
def indsRsi4 : List TechnicalIndicator :=
  [{ date := 1, indicator_name := "RSI_14", value := 65 },
   { date := 2, indicator_name := "RSI_14", value := 72 },
   { date := 3, indicator_name := "RSI_14", value := 74 },
   { date := 4, indicator_name := "RSI_14", value := 68 }]

def pricesRsi4 : List DailyPrice :=
  [{ date := 1, openp := 100, high := 100, low := 100, close := 100, volume := 0 },
   { date := 2, openp := 100, high := 100, low := 100, close := 100, volume := 0 },
   { date := 3, openp := 100, high := 100, low := 100, close := 100, volume := 0 },
   { date := 4, openp := 100, high := 100, low := 100, close := 100, volume := 0 }]

theorem generate_signals_Rsi4_eval :
    generate_signals SignalConfig.default "S" indsRsi4 pricesRsi4 =
      [mkSignal "S" SignalType.RsiOverbought SignalDirection.Bearish (1/15) 100 72
        "RSI_14" 2] := by
  norm_num +decide [generate_signals, build_indicator_map, updateDate, insertPair,
    lookupDate, sortedKeys, List.insertionSort, List.orderedInsert, genLoop,
    signalsForDate, detect_rsi_signal, detect_macd_signal, detect_bollinger_signal,
    detect_ma_crossover_signal, detect_adx_signal, detect_stochastic_signal,
    detect_willr_signal, detect_cci_signal, detect_mfi_signal, thresholdDetect,
    crossoverDetect, lookupName, priceOrZero, lookupClose, mkSignal, indsRsi4,
    pricesRsi4, SignalConfig.default, List.foldl]

/-- C2 witness: on the RSI series [65, 72, 74, 68] only date 2 emits (the
crossing date, `RsiOverbought` with strength (72-70)/30), dates 3 and 4 emit
nothing, and the amended theorem applies to the consecutive pair (2, 3). -/
theorem no_repeat_witness :
    generate_signals SignalConfig.default "S" indsRsi4 pricesRsi4 =
      [mkSignal "S" SignalType.RsiOverbought SignalDirection.Bearish (1/15) 100 72
        "RSI_14" 2] ∧
    sortedKeys (build_indicator_map indsRsi4) = [1] ++ 2 :: 3 :: [4] ∧
    ¬ ((∃ s1 ∈ generate_signals SignalConfig.default "S" indsRsi4 pricesRsi4,
          s1.timestamp = 2 ∧ s1.signal_type = SignalType.RsiOverbought) ∧
       (∃ s2 ∈ generate_signals SignalConfig.default "S" indsRsi4 pricesRsi4,
          s2.timestamp = 3 ∧ s2.signal_type = SignalType.RsiOverbought)) := by
  have hsort : sortedKeys (build_indicator_map indsRsi4) = [1] ++ 2 :: 3 :: [4] := by
    norm_num +decide [sortedKeys, build_indicator_map, updateDate, insertPair,
      List.insertionSort, List.orderedInsert, indsRsi4, List.foldl]
  exact ⟨generate_signals_Rsi4_eval, hsort,
    no_repeat_on_consecutive_dates SignalConfig.default "S" indsRsi4 pricesRsi4
      [1] [4] 2 3 SignalType.RsiOverbought hsort (by decide) (by decide)⟩

/-- C6: `generate_signals` is empty when either input is empty; otherwise it
is the concatenation, over the distinct indicator dates in ascending order,
of the per-date blocks (the nine detectors in the fixed order RSI, MACD,
Bollinger, MA crossover, ADX, Stochastic, Williams %R, CCI, MFI — the
definition of `signalsForDate`), where each date's close defaults to 0 when
missing and each date's previous-day map is the map of the immediately
preceding distinct index date (`none` for the first date). -/
theorem generate_signals_structure :
    ∀ (cfg : SignalConfig) (symbol : String) (inds : List TechnicalIndicator)
      (prices : List DailyPrice),
      ((prices.isEmpty || inds.isEmpty) = true →
        generate_signals cfg symbol inds prices = []) ∧
      (prices ≠ [] → inds ≠ [] →
        generate_signals cfg symbol inds prices =
          ((List.insertionSort (fun a b => a ≤ b)
              (inds.map TechnicalIndicator.date).dedup).zip
            (none :: (List.insertionSort (fun a b => a ≤ b)
              (inds.map TechnicalIndicator.date).dedup).map some)).flatMap
            (fun pr =>
              match lookupDate (build_indicator_map inds) pr.1 with
              | some today => signalsForDate cfg symbol pr.1 (priceOrZero prices pr.1)
                  today (pr.2.bind (fun p => lookupDate (build_indicator_map inds) p))
              | none => [])) := by
  intro cfg symbol inds prices
  constructor
  · intro h
    unfold generate_signals
    rw [if_pos h]
  · intro hp hi
    unfold generate_signals
    rw [if_neg (by simp [List.isEmpty_iff, hp, hi])]
    dsimp only
    rw [genLoop_eq_flatMap, sortedKeys_build_eq]

/-- C6 witness: the structural equation evaluated on a one-date input. -/
theorem generate_signals_structure_witness :
    pricesW ≠ [] ∧ indsW ≠ [] ∧
    generate_signals SignalConfig.default "S" indsW pricesW =
      ((List.insertionSort (fun a b => a ≤ b)
          (indsW.map TechnicalIndicator.date).dedup).zip
        (none :: (List.insertionSort (fun a b => a ≤ b)
          (indsW.map TechnicalIndicator.date).dedup).map some)).flatMap
        (fun pr =>
          match lookupDate (build_indicator_map indsW) pr.1 with
          | some today => signalsForDate SignalConfig.default "S" pr.1
              (priceOrZero pricesW pr.1) today
              (pr.2.bind (fun p => lookupDate (build_indicator_map indsW) p))
          | none => []) := by
  refine ⟨by simp [pricesW], by simp [indsW], ?_⟩
  exact (generate_signals_structure SignalConfig.default "S" indsW pricesW).2
    (by simp [pricesW]) (by simp [indsW])

/-- C8 (amended): for fixed inputs the individual-signal list does not
depend on the map iteration order at all, and the confluence list is
determined up to permutation — two enumerations of the same date set yield
permuted confluence lists.  The confluence list's order itself follows the
HashMap iteration order, which Rust does not fix across invocations, so the
lists are not bit-identical (see the counterexample). -/
theorem with_confluence_reproducible :
    ∀ (cfg : SignalConfig) (ccfg : ConfluenceConfig) (symbol : String)
      (inds : List TechnicalIndicator) (prices : List DailyPrice) (o1 o2 : List ℤ),
      o1.Perm o2 →
      (generate_signals_with_confluence cfg ccfg symbol inds prices o1).1 =
        (generate_signals_with_confluence cfg ccfg symbol inds prices o2).1 ∧
      ((generate_signals_with_confluence cfg ccfg symbol inds prices o1).2).Perm
        ((generate_signals_with_confluence cfg ccfg symbol inds prices o2).2) := by
  intro cfg ccfg symbol inds prices o1 o2 hperm
  refine ⟨rfl, ?_⟩
  unfold generate_signals_with_confluence
  dsimp only
  rw [confluenceLoop_eq_filterMap, confluenceLoop_eq_filterMap]
  exact hperm.filterMap _

/-- A bullish vote set recorded on two dates. -/
def indsConf : List TechnicalIndicator :=
  [{ date := 1, indicator_name := "RSI_14", value := 25 },
   { date := 1, indicator_name := "MACD_12_26", value := 3/2 },
   { date := 1, indicator_name := "MACD_SIGNAL_9", value := 1 },
   { date := 1, indicator_name := "STOCH_K_14", value := 15 },
   { date := 1, indicator_name := "CCI_20", value := -150 },
   { date := 2, indicator_name := "RSI_14", value := 25 },
   { date := 2, indicator_name := "MACD_12_26", value := 3/2 },
   { date := 2, indicator_name := "MACD_SIGNAL_9", value := 1 },
   { date := 2, indicator_name := "STOCH_K_14", value := 15 },
   { date := 2, indicator_name := "CCI_20", value := -150 }]

def pricesConf : List DailyPrice :=
  [{ date := 1, openp := 100, high := 100, low := 100, close := 100, volume := 0 },
   { date := 2, openp := 100, high := 100, low := 100, close := 100, volume := 0 }]

theorem conf_dates_12 :
    ((generate_signals_with_confluence SignalConfig.default ConfluenceConfig.default
        "S" indsConf pricesConf [1, 2]).2).map ConfluenceSignal.date = [1, 2] := by
  norm_num +decide [generate_signals_with_confluence, confluenceLoop,
    detect_confluence_signal, confluence_votes, rsi_vote, macd_vote, bb_vote,
    stoch_vote, cci_vote, votesIn, List.filter, adx_confidence_of, Option.filter,
    finalStrength, build_indicator_map, updateDate, insertPair, lookupDate,
    lookupName, priceOrZero, lookupClose, indsConf, pricesConf,
    ConfluenceConfig.default, List.foldl]

theorem conf_dates_21 :
    ((generate_signals_with_confluence SignalConfig.default ConfluenceConfig.default
        "S" indsConf pricesConf [2, 1]).2).map ConfluenceSignal.date = [2, 1] := by
  norm_num +decide [generate_signals_with_confluence, confluenceLoop,
    detect_confluence_signal, confluence_votes, rsi_vote, macd_vote, bb_vote,
    stoch_vote, cci_vote, votesIn, List.filter, adx_confidence_of, Option.filter,
    finalStrength, build_indicator_map, updateDate, insertPair, lookupDate,
    lookupName, priceOrZero, lookupClose, indsConf, pricesConf,
    ConfluenceConfig.default, List.foldl]

/-- C8 counterexample: the same inputs iterated in the two possible map
orders give confluence lists that differ (as lists, order included), so the
output is not bit-identical across invocations whose HashMap happens to
iterate differently. -/
theorem with_confluence_order_counterexample :
    (generate_signals_with_confluence SignalConfig.default ConfluenceConfig.default
        "S" indsConf pricesConf [1, 2]).2 ≠
      (generate_signals_with_confluence SignalConfig.default ConfluenceConfig.default
        "S" indsConf pricesConf [2, 1]).2 := by
  intro h
  have hd := congrArg (List.map ConfluenceSignal.date) h
  rw [conf_dates_12, conf_dates_21] at hd
  exact absurd hd (by decide)

/-- C8 witness: the amended statement applied to the two orders. -/
theorem with_confluence_reproducible_witness :
    ([1, 2] : List ℤ).Perm [2, 1] ∧
    ((generate_signals_with_confluence SignalConfig.default ConfluenceConfig.default
        "S" indsConf pricesConf [1, 2]).1 =
      (generate_signals_with_confluence SignalConfig.default ConfluenceConfig.default
        "S" indsConf pricesConf [2, 1]).1 ∧
     ((generate_signals_with_confluence SignalConfig.default ConfluenceConfig.default
        "S" indsConf pricesConf [1, 2]).2).Perm
      ((generate_signals_with_confluence SignalConfig.default ConfluenceConfig.default
        "S" indsConf pricesConf [2, 1]).2)) :=
  ⟨by decide, with_confluence_reproducible SignalConfig.default ConfluenceConfig.default
    "S" indsConf pricesConf [1, 2] [2, 1] (by decide)⟩

/-- C10 (amended): a date present in the indicator index but absent from the
price list is still processed, with closing price 0 rather than being
skipped; if that date's map carries all three Bollinger values with
`BB_UPPER_20 ≥ 0` and `BB_LOWER_20 > 0`, a `BollingerLowerBreak`/Bullish
signal with `price_at_signal = 0` is emitted (with a negative upper band the
upper-break branch wins instead — see the counterexample), and the
confluence aggregator is likewise evaluated at price 0 for that date. -/
theorem missing_price_date_uses_zero :
    ∀ (cfg : SignalConfig) (ccfg : ConfluenceConfig) (symbol : String)
      (inds : List TechnicalIndicator) (prices : List DailyPrice) (d : ℤ) (m : DayMap),
      prices ≠ [] →
      lookupDate (build_indicator_map inds) d = some m →
      d ∉ prices.map DailyPrice.date →
      priceOrZero prices d = 0 ∧
      (∀ upper lower middle : ℚ,
        lookupName m "BB_UPPER_20" = some upper →
        lookupName m "BB_LOWER_20" = some lower →
        lookupName m "BB_MIDDLE_20" = some middle →
        0 ≤ upper → 0 < lower →
        ∃ s ∈ generate_signals cfg symbol inds prices,
          s.signal_type = SignalType.BollingerLowerBreak ∧
          s.direction = SignalDirection.Bullish ∧
          s.price_at_signal = 0 ∧ s.timestamp = d) ∧
      (∀ (order : List ℤ) (c : ConfluenceSignal), d ∈ order →
        detect_confluence_signal ccfg symbol d 0 m = some c →
        c ∈ (generate_signals_with_confluence cfg ccfg symbol inds prices order).2) := by
  intro cfg ccfg symbol inds prices d m hp hl hnp
  have hprice : priceOrZero prices d = 0 := by
    unfold priceOrZero
    rw [(lookupClose_eq_none_iff prices d).mpr hnp]
    rfl
  have hinds : inds ≠ [] := by
    intro h
    rw [h] at hl
    exact Option.noConfusion hl
  refine ⟨hprice, ?_, ?_⟩
  · intro upper lower middle hu hlo hm h0u h0l
    have hdet : detect_bollinger_signal cfg symbol d 0 m =
        some (mkSignal symbol SignalType.BollingerLowerBreak SignalDirection.Bullish
          (min ((lower - 0) / max (middle - lower) (1/100)) 1) 0 lower
          "BB_LOWER_20" d) := by
      unfold detect_bollinger_signal
      rw [hu, hlo, hm]
      dsimp only
      rw [if_neg (not_lt.mpr h0u), if_pos h0l]
    have hmem : d ∈ sortedKeys (build_indicator_map inds) :=
      (mem_sortedKeys _ d).mpr ((lookupDate_isSome_iff _ d).mp (by rw [hl]; rfl))
    obtain ⟨pm, hsub⟩ := @genLoop_intro cfg symbol (build_indicator_map inds) prices d m
      (sortedKeys (build_indicator_map inds)) none hmem hl
    refine ⟨mkSignal symbol SignalType.BollingerLowerBreak SignalDirection.Bullish
      (min ((lower - 0) / max (middle - lower) (1/100)) 1) 0 lower "BB_LOWER_20" d,
      ?_, rfl, rfl, rfl, rfl⟩
    unfold generate_signals
    rw [if_neg (by simp [List.isEmpty_iff, hp, hinds])]
    dsimp only
    apply hsub
    apply mem_signalsForDate.mpr
    rw [hprice]
    exact Or.inr (Or.inr (Or.inl hdet))
  · intro order c hdo hdc
    unfold generate_signals_with_confluence
    dsimp only
    rw [confluenceLoop_eq_filterMap]
    apply List.mem_filterMap.mpr
    refine ⟨d, hdo, ?_⟩
    rw [hl, Option.some_bind, hprice]
    exact hdc

/-- A date (2) with Bollinger values whose upper band is negative and lower
band positive, with no price row for that date. -/
def indsC10 : List TechnicalIndicator :=
  [{ date := 2, indicator_name := "BB_UPPER_20", value := -5 },
   { date := 2, indicator_name := "BB_LOWER_20", value := 1 },
   { date := 2, indicator_name := "BB_MIDDLE_20", value := 0 }]

def pricesC10 : List DailyPrice :=
  [{ date := 1, openp := 100, high := 100, low := 100, close := 100, volume := 0 }]

/-- C10 counterexample: date 2 is in the index, absent from the prices, and
its `BB_LOWER_20 = 1 > 0`, yet the engine emits `BollingerUpperBreak` (the
default price 0 exceeds the negative upper band, and that branch is checked
first), not the claimed `BollingerLowerBreak`. -/
theorem missing_price_counterexample :
    (2:ℤ) ∉ pricesC10.map DailyPrice.date ∧
    getVal (build_indicator_map indsC10) 2 "BB_LOWER_20" = some 1 ∧ (0:ℚ) < 1 ∧
    (generate_signals SignalConfig.default "S" indsC10 pricesC10).map Signal.signal_type =
      [SignalType.BollingerUpperBreak] := by
  refine ⟨by decide, ?_, by norm_num, ?_⟩
  · norm_num +decide [getVal, build_indicator_map, updateDate, insertPair, lookupDate,
      lookupName, indsC10, List.foldl]
  · norm_num +decide [generate_signals, build_indicator_map, updateDate, insertPair,
      lookupDate, sortedKeys, List.insertionSort, List.orderedInsert, genLoop,
      signalsForDate, detect_rsi_signal, detect_macd_signal, detect_bollinger_signal,
      detect_ma_crossover_signal, detect_adx_signal, detect_stochastic_signal,
      detect_willr_signal, detect_cci_signal, detect_mfi_signal, thresholdDetect,
      crossoverDetect, lookupName, priceOrZero, lookupClose, mkSignal, indsC10,
      pricesC10, SignalConfig.default, List.foldl]

/-- A sane Bollinger triple on the price-less date 2. -/
def indsC10W : List TechnicalIndicator :=
  [{ date := 2, indicator_name := "BB_UPPER_20", value := 110 },
   { date := 2, indicator_name := "BB_LOWER_20", value := 90 },
   { date := 2, indicator_name := "BB_MIDDLE_20", value := 100 }]

/-- C10 witness: the amended statement applied to a sane band triple on a
date with no price row. -/
theorem missing_price_witness :
    priceOrZero pricesC10 2 = 0 ∧
    ∃ s ∈ generate_signals SignalConfig.default "S" indsC10W pricesC10,
      s.signal_type = SignalType.BollingerLowerBreak ∧
      s.direction = SignalDirection.Bullish ∧
      s.price_at_signal = 0 ∧ s.timestamp = 2 := by
  have hl : lookupDate (build_indicator_map indsC10W) 2 =
      some [("BB_UPPER_20", 110), ("BB_LOWER_20", 90), ("BB_MIDDLE_20", 100)] := by
    norm_num +decide [build_indicator_map, updateDate, insertPair, lookupDate,
      indsC10W, List.foldl]
  have h := missing_price_date_uses_zero SignalConfig.default ConfluenceConfig.default
    "S" indsC10W pricesC10 2 _ (by simp [pricesC10]) hl (by decide)
  exact ⟨h.1, h.2.1 110 90 100 (by simp +decide [lookupName]) (by simp +decide [lookupName])
    (by simp +decide [lookupName]) (by norm_num) (by norm_num)⟩
